import Mathlib

/-!
Shallow embedding of `src/VSR/Backend/Torch/Models/Rlsp.py` (model RLSP:
recurrent latent space propagation video super-resolution).

The tensor runtime (torch) is abstracted by a record of primitive tensor
operations `ModelPrim`; the control flow, state threading, loss/metric
aggregation and error behaviour of `RLSPCell.forward`, `RlspNet.forward`,
`RLSP.train` and `RLSP.eval` are translated line by line from the source.

Three instantiations of the primitive record are used:
* `symPrim` : tensors as symbolic expression trees (`TExpr`), which lets
  concrete runs be inspected structurally (which tensor was fed where);
* `shapePrim` : tensors as `(N, C, H, W)` shapes, for shape claims; the
  convolution blocks (`EasyConv2d`), `SpaceToDepth` and `upsample` live in
  repository files outside `src/` and are modelled from the spec there;
* `RatOps.prim` : tensors as rational scalars with genuine addition and
  division, for the loss/metric aggregation claims.

The training/evaluation entry points take the already-unpacked frame lists:
in the source, `frames = [x.squeeze(1) for x in inputs[0].split(1, dim=1)]`
turns the 5-D input batch into a list of frame tensors, and the claims are
all phrased over that list of `n` frames.
-/

namespace VSR

/-- Primitive tensor operations used by `RLSPCell.forward` / `RlspNet.forward`
(torch ops, plus the convolution blocks of the cell). -/
structure NetPrim (α : Type) where
  /-- `torch.cat(·, dim=1)` : concatenation along the channel dimension. -/
  cat : List α → α
  /-- `self.cell` : the `nn.Sequential` stack of `EasyConv2d` blocks. -/
  convCell : α → α
  /-- `self.hidden` : `EasyConv2d(hidden_channels, hidden_channels, 3, relu)`. -/
  convHidden : α → α
  /-- `self.exit` : `EasyConv2d(hidden_channels, out_channels, 3)`. -/
  convExit : α → α
  /-- `torch.zeros(*shape)` where `shape` is the template's shape with the
  channel entry replaced by the first argument (`RlspNet.forward` lines 58-61). -/
  zerosF : Nat → α → α
  /-- `F.interpolate(·, scale_factor=s)`. -/
  interpolate : α → Nat → α
  /-- `SpaceToDepth(s)` applied to a tensor. -/
  spaceToDepth : Nat → α → α
  /-- `Tensor.detach()`. -/
  detach : α → α
  /-- `F.pixel_shuffle(·, s)`. -/
  pixelShuffle : α → Nat → α
  /-- elementwise tensor `+`. -/
  add : α → α → α

/-- The additional primitives used by `RLSP.train` / `RLSP.eval`. -/
structure ModelPrim (α : Type) extends NetPrim α where
  /-- `Util.Utility.upsample(·, scale)`. -/
  upsample : α → Nat → α
  /-- `torch.zeros_like(·)`. -/
  zerosLike : α → α
  /-- `F.mse_loss`. -/
  mse : α → α → α
  /-- Python `int + tensor` (the accumulators start as the int literal `0`). -/
  intAdd : Int → α → α
  /-- numpy scalar division by `len(frames)`. -/
  divNat : α → Nat → α

/-- `RLSPCell.forward` (source lines 38-44): concatenate the frame window
along the channel dimension, concatenate hidden state and feedback, run the
convolution stack, and emit `(residual, next_hidden_state)`. -/
def RLSPCell.forward {α : Type} (P : NetPrim α) (lr_frames : List α)
    (feedback hidden_state : α) : α × α :=
  let lr := P.cat lr_frames
  let inputs := P.cat [lr, hidden_state, feedback]
  let x := P.convCell inputs
  let next_hidden_state := P.convHidden x
  let residual := P.convExit x
  (residual, next_hidden_state)

/-- `RlspNet.forward` (source lines 57-66), with `f = self.f` (filters),
`d = self.d` (depth = clips) and `s = self.s` (scale): substitute a zero
hidden state when `hidden is None`, upscale the center frame, space-to-depth
the feedback frame, run the cell, and add the pixel-shuffled residual. -/
def RlspNet.forward {α : Type} [Inhabited α] (P : NetPrim α) (f d s : Nat)
    (lr : List α) (sr : α) (hidden : Option α) : α × α :=
  let h := match hidden with
    | none => P.zerosF f lr.headI
    | some v => v
  let center := P.interpolate (lr.getI (d / 2)) s
  let feedback := P.detach (P.spaceToDepth s sr)
  let rs := RLSPCell.forward P lr feedback h
  (P.add center (P.pixelShuffle rs.1 s), rs.2)

/-- Python list subscription `xs[i]` for a non-negative index: raises
`IndexError` when out of range. -/
def pyGet {α : Type} (xs : List α) (i : Nat) : Except String α :=
  match xs.get? i with
  | some v => Except.ok v
  | none => Except.error "IndexError"

/-- A Python value that is either still the int literal `0` (the initial
value of `total_loss` / `image_loss`) or a tensor. -/
inductive PyVal (α : Type) where
  | int : Int → PyVal α
  | tensor : α → PyVal α

/-- Python `+=` of a tensor onto a `PyVal` accumulator (`int.__add__` /
`Tensor.__radd__`). -/
def PyVal.addT {α : Type} (P : ModelPrim α) : PyVal α → α → PyVal α
  | .int n, t => .tensor (P.intAdd n t)
  | .tensor a, t => .tensor (P.add a t)

/-- Folding a list of tensors onto a `PyVal` accumulator with `+=`. -/
def pySum {α : Type} (P : ModelPrim α) (vs : List α) (v0 : PyVal α) : PyVal α :=
  vs.foldl (PyVal.addT P) v0

/-- The loop index list of `RLSP.train` / `RLSP.eval`:
`range(self.clips // 2, len(frames) - self.clips // 2)` (with Python's
empty range when the upper bound does not exceed the lower one). -/
def loopIdx (c n : Nat) : List Nat :=
  List.range' (c / 2) (n - c / 2 - c / 2)

/-- The frame window fed to the network at index `i`:
`[frames[i - self.clips // 2 + j] for j in range(self.clips)]`. -/
def lrWindow {α : Type} [Inhabited α] (c : Nat) (frames : List α) (i : Nat) :
    List α :=
  (List.range c).map fun j => frames.getI (i - c / 2 + j)

/-- `param_group["lr"] = learning_rate` for every parameter group, guarded by
Python truthiness (`if learning_rate:`, source lines 89-91); `None` and `0`
are falsy. -/
def setLearningRate (param_groups : List ℚ) (learning_rate : Option ℚ) :
    List ℚ :=
  match learning_rate with
  | none => param_groups
  | some v => if v ≠ 0 then param_groups.map (fun _ => v) else param_groups

/-- Optimizer-facing side effects of one training call. -/
inductive OptEvent where
  | zeroGrad : OptEvent
  | backward : OptEvent
  | step : OptEvent
deriving BEq, DecidableEq

/-- Record of one executed loop iteration: the index, the arguments passed to
`self.rlsp(lr_group, last_sr, last_hidden)` and the two returned tensors. -/
structure Step (α : Type) where
  idx : Nat
  lrGroup : List α
  srIn : α
  hiddenIn : Option α
  srOut : α
  hiddenOut : α

instance {α : Type} [Inhabited α] : Inhabited (Step α) :=
  ⟨⟨0, [], default, none, default, default⟩⟩

/-- Mutable state of the training loop body (source lines 92-105). -/
structure TrainAcc (α : Type) where
  total : PyVal α
  image : PyVal α
  lastSr : α
  lastHidden : Option α

/-- The training loop (source lines 97-105), returning the final accumulator
state together with the ordered record of the executed iterations.  Note
`last_hidden = hidden` (line 100) and `last_sr = sr.detach()` (line 101);
`labels[i]` (line 102) raises `IndexError` when the label list does not
cover the processed index, aborting the whole call. -/
def trainLoop {α : Type} [Inhabited α] (P : ModelPrim α) (f s c : Nat)
    (frames labels : List α) :
    List Nat → TrainAcc α → Except String (TrainAcc α × List (Step α))
  | [], acc => .ok (acc, [])
  | i :: rest, acc =>
    let lr_group := lrWindow c frames i
    let srh := RlspNet.forward P.toNetPrim f c s lr_group acc.lastSr acc.lastHidden
    match pyGet labels i with
    | .error e => .error e
    | .ok lbl =>
      let l2_image := P.mse srh.1 lbl
      let acc' : TrainAcc α :=
        { total := acc.total.addT P l2_image
          image := acc.image.addT P (P.detach l2_image)
          lastSr := P.detach srh.1
          lastHidden := some srh.2 }
      match trainLoop P f s c frames labels rest acc' with
      | .error e => .error e
      | .ok r =>
        .ok (r.1, { idx := i, lrGroup := lr_group, srIn := acc.lastSr,
                    hiddenIn := acc.lastHidden, srOut := srh.1,
                    hiddenOut := srh.2 } :: r.2)

/-- Initial training-loop state (source lines 92-96): accumulators are the
int `0`, `last_hidden = None`, and
`last_sr = torch.zeros_like(upsample(frames[0], self.scale))`. -/
def trainAcc0 {α : Type} [Inhabited α] (P : ModelPrim α) (s : Nat)
    (frames : List α) : TrainAcc α :=
  { total := .int 0, image := .int 0,
    lastSr := P.zerosLike (P.upsample frames.headI s), lastHidden := none }

/-- The value returned by a successful `RLSP.train` call, plus the observable
side effects: the returned loss dictionary, the Adam parameter-group learning
rates after the call, the optimizer events, and the iteration record. -/
structure TrainOut (α : Type) where
  dict : List (String × α)
  lrs : List ℚ
  events : List OptEvent
  steps : List (Step α)

/-- `RLSP.train` (source lines 86-112) over the unpacked frame/label lists.
`f`, `s`, `c` are `filters`, `scale`, `clips`; `param_groups` is the list of
Adam learning rates.  `frames[0]` raises `IndexError` on an empty input, and
`total_loss.backward()` raises `AttributeError` when the loop body never ran
(the accumulator is still the Python int `0`). -/
def RLSP.train {α : Type} [Inhabited α] (P : ModelPrim α) (f s c : Nat)
    (param_groups : List ℚ) (frames labels : List α)
    (learning_rate : Option ℚ) : Except String (TrainOut α) :=
  let lrs := setLearningRate param_groups learning_rate
  match pyGet frames 0 with
  | .error e => .error e
  | .ok _ =>
    match trainLoop P f s c frames labels (loopIdx c frames.length)
        (trainAcc0 P s frames) with
    | .error e => .error e
    | .ok r =>
      match r.1.total, r.1.image with
      | .tensor t, .tensor im =>
        .ok { dict := [("total_loss", P.divNat (P.detach t) frames.length),
                       ("image_loss", P.divNat im frames.length)],
              lrs := lrs,
              events := [.zeroGrad, .backward, .step],
              steps := r.2 }
      | _, _ => .error "AttributeError: int object has no attribute backward"

/-- Mutable state of the evaluation loop body (source lines 119-131). -/
structure EvalAcc (α : Type) where
  lastSr : α
  lastHidden : Option α
  predicts : List α
  psnr : List ℚ

/-- The per-iteration psnr update of the evaluation loop (source lines
130-131): `if labels is not None: psnr.append(Metrics.psnr(sr, labels[i]))`,
where `labels[i]` raises `IndexError` when out of range. -/
def psnrStep {α : Type} (psnrF : α → α → ℚ) (labels : Option (List α))
    (i : Nat) (sr : α) (acc : List ℚ) : Except String (List ℚ) :=
  match labels with
  | none => .ok acc
  | some ls =>
    match pyGet ls i with
    | .error e => .error e
    | .ok lbl => .ok (acc ++ [psnrF sr lbl])

/-- The evaluation loop (source lines 125-131).  The source updates
`last_sr = sr.detach()` but never assigns `last_hidden` inside this loop, so
`lastHidden` is carried through unchanged; `labels[i]` (line 131, executed
only when labels were provided, see `psnrStep`) raises `IndexError` when the
label list does not cover the processed index, aborting the whole call. -/
def evalLoop {α : Type} [Inhabited α] (P : ModelPrim α) (psnrF : α → α → ℚ)
    (f s c : Nat) (frames : List α) (labels : Option (List α)) :
    List Nat → EvalAcc α → Except String (EvalAcc α × List (Step α))
  | [], acc => .ok (acc, [])
  | i :: rest, acc =>
    let lr_group := lrWindow c frames i
    let srh := RlspNet.forward P.toNetPrim f c s lr_group acc.lastSr acc.lastHidden
    match psnrStep psnrF labels i srh.1 acc.psnr with
    | .error e => .error e
    | .ok newPsnr =>
      let acc' : EvalAcc α :=
        { lastSr := P.detach srh.1
          lastHidden := acc.lastHidden
          predicts := acc.predicts ++ [P.detach srh.1]
          psnr := newPsnr }
      match evalLoop P psnrF f s c frames labels rest acc' with
      | .error e => .error e
      | .ok r =>
        .ok (r.1, { idx := i, lrGroup := lr_group, srIn := acc.lastSr,
                    hiddenIn := acc.lastHidden, srOut := srh.1,
                    hiddenOut := srh.2 } :: r.2)

/-- Initial evaluation-loop state (source lines 119-123). -/
def evalAcc0 {α : Type} [Inhabited α] (P : ModelPrim α) (s : Nat)
    (frames : List α) : EvalAcc α :=
  { lastSr := P.zerosLike (P.upsample frames.headI s), lastHidden := none,
    predicts := [], psnr := [] }

/-- `np.mean` of a list of scalars: `NaN` on an empty list, otherwise the
arithmetic mean. -/
inductive NpMean where
  | nan : NpMean
  | val : ℚ → NpMean
deriving DecidableEq

/-- `np.mean` (source line 132). -/
def npMean (xs : List ℚ) : NpMean :=
  if xs.isEmpty then .nan else .val (xs.sum / (xs.length : ℚ))

/-- The pair returned by a successful `RLSP.eval` call (`predicts, metrics`)
plus the iteration record. -/
structure EvalOut (α : Type) where
  predicts : List α
  metrics : List (String × NpMean)
  steps : List (Step α)

/-- `RLSP.eval` (source lines 114-138) over the unpacked frame list.
`psnrF` is `Util.Metrics.psnr`; `writerActive` tells whether
`get_writer(self.name)` returns a writer, and `epoch?` whether (and with
what value) the `epoch` keyword argument was passed in `kwargs`.
`frames[0]` raises `IndexError` on an empty input; with a writer active,
`step = kwargs['epoch']` (source line 135) raises `KeyError` when the
`epoch` kwarg is absent, and then `writer.image('label', labels[i])`
(line 137) subscripts `labels`, which raises `TypeError` when
`labels is None` (the loop variable `i` is initialized to `0` before the
loop, source line 124) and `IndexError` when it is out of range. -/
def RLSP.eval {α : Type} [Inhabited α] (P : ModelPrim α) (psnrF : α → α → ℚ)
    (f s c : Nat) (writerActive : Bool) (epoch? : Option Nat)
    (frames : List α) (labels : Option (List α)) :
    Except String (EvalOut α) :=
  match pyGet frames 0 with
  | .error e => .error e
  | .ok _ =>
    match evalLoop P psnrF f s c frames labels (loopIdx c frames.length)
        (evalAcc0 P s frames) with
    | .error e => .error e
    | .ok r =>
      let metrics := [("psnr", npMean r.1.psnr)]
      let iLast := (loopIdx c frames.length).getLastD 0
      if writerActive then
        match epoch? with
        | none => .error "KeyError: epoch"
        | some _ =>
          match labels with
          | none => .error "TypeError: NoneType object is not subscriptable"
          | some ls =>
            match pyGet ls iLast with
            | .error e => .error e
            | .ok _ => .ok { predicts := r.1.predicts, metrics := metrics,
                             steps := r.2 }
      else
        .ok { predicts := r.1.predicts, metrics := metrics, steps := r.2 }

/-- The iteration record of a training call (empty when the call raised). -/
def trainSteps {α : Type} [Inhabited α] (P : ModelPrim α) (f s c : Nat)
    (frames labels : List α) : List (Step α) :=
  match trainLoop P f s c frames labels (loopIdx c frames.length)
      (trainAcc0 P s frames) with
  | .ok r => r.2
  | .error _ => []

/-- The iteration record of an evaluation call (empty when the call
raised). -/
def evalSteps {α : Type} [Inhabited α] (P : ModelPrim α) (psnrF : α → α → ℚ)
    (f s c : Nat) (frames : List α) (labels : Option (List α)) :
    List (Step α) :=
  match evalLoop P psnrF f s c frames labels (loopIdx c frames.length)
      (evalAcc0 P s frames) with
  | .ok r => r.2
  | .error _ => []

/-- The `psnr` list accumulated by an evaluation call (empty when the call
raised). -/
def evalPsnrs {α : Type} [Inhabited α] (P : ModelPrim α) (psnrF : α → α → ℚ)
    (f s c : Nat) (frames : List α) (labels : Option (List α)) : List ℚ :=
  match evalLoop P psnrF f s c frames labels (loopIdx c frames.length)
      (evalAcc0 P s frames) with
  | .ok r => r.1.psnr
  | .error _ => []

/-- Symbolic tensor expressions: each constructor records one primitive
tensor operation, so a concrete run of the embedded code can be inspected
structurally. -/
inductive TExpr : Type where
  | frame : Nat → TExpr
  | lab : Nat → TExpr
  | zerosF : Nat → TExpr → TExpr
  | zerosLike : TExpr → TExpr
  | upsample : TExpr → Nat → TExpr
  | interpolate : TExpr → Nat → TExpr
  | spaceToDepth : Nat → TExpr → TExpr
  | pixelShuffle : TExpr → Nat → TExpr
  | detach : TExpr → TExpr
  | add : TExpr → TExpr → TExpr
  | cat : List TExpr → TExpr
  | convCell : TExpr → TExpr
  | convHidden : TExpr → TExpr
  | convExit : TExpr → TExpr
  | mse : TExpr → TExpr → TExpr
  | intAdd : Int → TExpr → TExpr
  | divNat : TExpr → Nat → TExpr

instance : Inhabited TExpr := ⟨TExpr.frame 0⟩

/-- The symbolic instantiation of the tensor primitives. -/
def symPrim : ModelPrim TExpr :=
  { cat := TExpr.cat
    convCell := TExpr.convCell
    convHidden := TExpr.convHidden
    convExit := TExpr.convExit
    zerosF := TExpr.zerosF
    interpolate := TExpr.interpolate
    spaceToDepth := TExpr.spaceToDepth
    detach := TExpr.detach
    pixelShuffle := TExpr.pixelShuffle
    add := TExpr.add
    upsample := TExpr.upsample
    zerosLike := TExpr.zerosLike
    mse := TExpr.mse
    intAdd := TExpr.intAdd
    divNat := TExpr.divNat }

/-- A sequence of `n` distinct symbolic input frames. -/
def symFrames (n : Nat) : List TExpr := (List.range n).map TExpr.frame

/-- A sequence of `n` distinct symbolic label frames. -/
def symLabels (n : Nat) : List TExpr := (List.range n).map TExpr.lab

/-- A 4-D tensor shape `(N, C, H, W)`. -/
structure ShapeT where
  n : Nat
  c : Nat
  h : Nat
  w : Nat
deriving DecidableEq

/-- Modelled from the spec: `EasyConv2d` (a repository file outside `src/`,
described by the spec as a convolution/activation building block) is a
same-padding 3x3 convolution: it maps an `(N, inC, H, W)` tensor to
`(N, outC, H, W)` and fails on a channel mismatch. -/
def convShape (inC outC : Nat) : Option ShapeT → Option ShapeT :=
  fun t => t.bind fun sh =>
    if sh.c = inC then some ⟨sh.n, outC, sh.h, sh.w⟩ else none

/-- Shape semantics of concatenating two tensors along the channel
dimension: the shapes must agree outside the channel dimension, channels
add up. -/
def catPair : Option ShapeT → Option ShapeT → Option ShapeT :=
  fun acc u => acc.bind fun a => u.bind fun b =>
    if a.n = b.n ∧ a.h = b.h ∧ a.w = b.w then
      some ⟨a.n, a.c + b.c, a.h, a.w⟩
    else none

/-- Shape semantics of `torch.cat(·, dim=1)`: all shapes must agree outside
the channel dimension, channels add up; `cat` of an empty list fails. -/
def catShape : List (Option ShapeT) → Option ShapeT
  | [] => none
  | t :: ts => ts.foldl catPair t

/-- Shape semantics of the tensor primitives for a `RlspNet` built as
`RlspNet(scale, channel, depth, layers, filters)` (source lines 47-55):
`in_channels = channel * depth + filters + channel * scale ** 2`, the cell is
one `EasyConv2d(in_channels, filters)` followed by `max(0, layers - 2)`
blocks `EasyConv2d(filters, filters)` (source lines 29-33); `SpaceToDepth`
and `upsample` are repository utilities outside `src/` and are modelled from
the spec as the standard pixel rearrangement / upsampling shape maps. -/
def shapePrim (scale channel depth layers filters : Nat) :
    NetPrim (Option ShapeT) :=
  { cat := catShape
    convCell := fun x =>
      (convShape filters filters)^[layers - 2]
        (convShape (channel * depth + filters + channel * scale ^ 2) filters x)
    convHidden := convShape filters filters
    convExit := convShape filters (channel * scale ^ 2)
    zerosF := fun f t => t.map fun sh => ⟨sh.n, f, sh.h, sh.w⟩
    interpolate := fun t s => t.map fun sh => ⟨sh.n, sh.c, sh.h * s, sh.w * s⟩
    spaceToDepth := fun s t => t.bind fun sh =>
      if 0 < s ∧ s ∣ sh.h ∧ s ∣ sh.w then
        some ⟨sh.n, sh.c * s ^ 2, sh.h / s, sh.w / s⟩
      else none
    detach := id
    pixelShuffle := fun t s => t.bind fun sh =>
      if 0 < s ∧ s ^ 2 ∣ sh.c then
        some ⟨sh.n, sh.c / s ^ 2, sh.h * s, sh.w * s⟩
      else none
    add := fun a b => a.bind fun x => b.bind fun y =>
      if x = y then some x else none }

/-- Tensor primitives over rational scalars with arbitrary network functions:
addition, int-addition and division are the genuine rational operations and
`detach` is the identity (detaching does not change a tensor's value), so the
loss accumulation of the training loop becomes genuine arithmetic. -/
structure RatOps where
  cat : List ℚ → ℚ
  convCell : ℚ → ℚ
  convHidden : ℚ → ℚ
  convExit : ℚ → ℚ
  zerosF : Nat → ℚ → ℚ
  interpolate : ℚ → Nat → ℚ
  spaceToDepth : Nat → ℚ → ℚ
  pixelShuffle : ℚ → Nat → ℚ
  upsample : ℚ → Nat → ℚ
  zerosLike : ℚ → ℚ
  mse : ℚ → ℚ → ℚ

/-- The `ModelPrim` induced by a `RatOps`. -/
def RatOps.prim (g : RatOps) : ModelPrim ℚ :=
  { cat := g.cat
    convCell := g.convCell
    convHidden := g.convHidden
    convExit := g.convExit
    zerosF := g.zerosF
    interpolate := g.interpolate
    spaceToDepth := g.spaceToDepth
    detach := id
    pixelShuffle := g.pixelShuffle
    add := fun a b => a + b
    upsample := g.upsample
    zerosLike := g.zerosLike
    mse := g.mse
    intAdd := fun z q => (z : ℚ) + q
    divNat := fun q n => q / (n : ℚ) }

/-- A concrete all-zero `RatOps`, used to instantiate hypotheses at concrete
inputs. -/
def zeroRatOps : RatOps :=
  { cat := fun _ => 0
    convCell := fun _ => 0
    convHidden := fun _ => 0
    convExit := fun _ => 0
    zerosF := fun _ _ => 0
    interpolate := fun _ _ => 0
    spaceToDepth := fun _ _ => 0
    pixelShuffle := fun _ _ => 0
    upsample := fun _ _ => 0
    zerosLike := fun _ => 0
    mse := fun a b => (a - b) ^ 2 }

/-- The concrete evaluation run witnessing the dropped hidden state: 4 input
frames, `clips = 3`, `scale = 2`, `filters = 64`, no labels needed for the
hidden-state inspection but provided anyway, no summary writer. -/
def hiddenDemoEval : EvalOut TExpr :=
  (RLSP.eval symPrim (fun _ _ => 0) 64 2 3 false none (symFrames 4)
    (some (symLabels 4))).toOption.getD ⟨[], [], []⟩

/-- The matching concrete training run on the same inputs. -/
def hiddenDemoTrain : TrainOut TExpr :=
  (RLSP.train symPrim 64 2 3 [] (symFrames 4) (symLabels 4)
    none).toOption.getD ⟨[], [], [], []⟩

/-- The window property of one processed step: the network was fed the
window of `clips` consecutive frames starting at `idx - clips // 2` (by
`clips // 2 ≤ idx` this window is genuinely `clips` frames of the sequence,
and for odd `clips` it spans exactly
`frames[idx - clips//2], ..., frames[idx + clips//2]`, centered on `idx`),
together with the recorded feedback frame `srIn` and hidden state
`hiddenIn`, and its outputs are `RlspNet.forward` of exactly those inputs
(inside which the feedback is space-to-depth rearranged and detached and the
concatenation along the channel dimension happens, see `RLSPCell.forward`). -/
def windowStep {α : Type} [Inhabited α] (N : NetPrim α) (f s c : Nat)
    (frames : List α) (st : Step α) : Prop :=
  c / 2 ≤ st.idx
  ∧ st.lrGroup = (List.range' (st.idx - c / 2) c).map frames.getI
  ∧ (st.srOut, st.hiddenOut)
      = RlspNet.forward N f c s st.lrGroup st.srIn st.hiddenIn

/-! ## General lemmas about the loop index list and the accumulators -/

lemma loopIdx_eq (c n : Nat) :
    loopIdx c n = List.range' (c / 2) (n - 2 * (c / 2)) := by
  unfold loopIdx
  rw [Nat.sub_sub, Nat.two_mul]

lemma length_loopIdx (c n : Nat) : (loopIdx c n).length = n - 2 * (c / 2) := by
  rw [loopIdx_eq, List.length_range']

lemma loopIdx_ne_nil {c n : Nat} (h : 2 * (c / 2) < n) : loopIdx c n ≠ [] := by
  rw [loopIdx_eq, Ne, List.range'_eq_nil]
  omega

lemma mem_loopIdx {c n i : Nat} (h : i ∈ loopIdx c n) :
    c / 2 ≤ i ∧ i < n - c / 2 := by
  rw [loopIdx_eq, List.mem_range'_1] at h
  omega

lemma loopIdx_getLastD_lt {c n : Nat} (h : 1 ≤ n) :
    (loopIdx c n).getLastD 0 < n := by
  rw [loopIdx_eq, List.getLastD_eq_getLast?, List.getLast?_range']
  rcases Nat.eq_zero_or_pos (n - 2 * (c / 2)) with h0 | h0
  · rw [h0]
    simpa using h
  · rw [if_neg (by omega)]
    simp only [Option.getD_some]
    omega

lemma pySum_tensor {α : Type} (P : ModelPrim α) (vs : List α) (a : α) :
    pySum P vs (.tensor a) = .tensor (vs.foldl P.add a) := by
  induction vs generalizing a with
  | nil => rfl
  | cons v t ih => simpa [pySum, PyVal.addT] using ih (P.add a v)

lemma pySum_int_zero {α : Type} (P : ModelPrim α) (v : α) (vs : List α) :
    pySum P (v :: vs) (.int 0) = .tensor (vs.foldl P.add (P.intAdd 0 v)) := by
  have : pySum P (v :: vs) (.int 0) = pySum P vs (.tensor (P.intAdd 0 v)) := rfl
  rw [this, pySum_tensor]

lemma pySum_exists_tensor {α : Type} (P : ModelPrim α) {vs : List α}
    (h : vs ≠ []) : ∃ t, pySum P vs (.int 0) = .tensor t := by
  cases vs with
  | nil => exact absurd rfl h
  | cons v t => exact ⟨_, pySum_int_zero P v t⟩

lemma rat_foldl_add (vs : List ℚ) (a : ℚ) :
    vs.foldl (fun x y => x + y) a = a + vs.sum := by
  induction vs generalizing a with
  | nil => simp
  | cons v t ih =>
    simp only [List.foldl_cons, List.sum_cons, ih (a + v)]
    ring

lemma rat_pySum (g : RatOps) {vs : List ℚ} (h : vs ≠ []) :
    pySum g.prim vs (.int 0) = .tensor vs.sum := by
  cases vs with
  | nil => exact absurd rfl h
  | cons v t =>
    rw [pySum_int_zero]
    have h1 : g.prim.intAdd 0 v = v := by
      simp [RatOps.prim]
    have h2 : g.prim.add = fun x y => x + y := rfl
    rw [h1, h2, rat_foldl_add, List.sum_cons]

/-! ## Lemmas about Python list subscription -/

lemma pyGet_nil {α : Type} (i : Nat) :
    pyGet ([] : List α) i = Except.error "IndexError" := by
  unfold pyGet
  rw [List.get?_nil]

lemma pyGet_error {α : Type} {xs : List α} {i : Nat} {e : String}
    (h : pyGet xs i = Except.error e) : e = "IndexError" := by
  unfold pyGet at h
  split at h
  · simp at h
  · injection h with h1
    exact h1.symm

lemma pyGet_ok {α : Type} [Inhabited α] {xs : List α} {i : Nat} {v : α}
    (h : pyGet xs i = Except.ok v) : v = xs.getI i := by
  unfold pyGet at h
  split at h
  · next y hy =>
    injection h with h1
    subst h1
    obtain ⟨hlt, hv⟩ := List.get?_eq_some.mp hy
    rw [List.getI_eq_get _ hlt]
    exact hv.symm
  · simp at h

lemma pyGet_zero {α : Type} [Inhabited α] {frames : List α}
    (hne : frames ≠ []) : pyGet frames 0 = Except.ok frames.headI := by
  cases frames with
  | nil => exact absurd rfl hne
  | cons a l => rfl

lemma pyGet_lt {α : Type} {xs : List α} {i : Nat} (h : i < xs.length) :
    ∃ v, pyGet xs i = Except.ok v := by
  have hv : xs.get? i = some (xs.get ⟨i, h⟩) := List.get?_eq_get h
  refine ⟨xs.get ⟨i, h⟩, ?_⟩
  unfold pyGet
  rw [hv]

/-! ## Lemmas about the training loop -/

lemma trainLoop_spec {α : Type} [Inhabited α] (P : ModelPrim α)
    (f s c : Nat) (frames labels : List α) :
    ∀ (idxs : List Nat) (acc : TrainAcc α) (r : TrainAcc α × List (Step α)),
      trainLoop P f s c frames labels idxs acc = Except.ok r →
      r.2.map (fun st => st.idx) = idxs
      ∧ (∀ st ∈ r.2,
          st.lrGroup = lrWindow c frames st.idx
          ∧ (st.srOut, st.hiddenOut)
              = RlspNet.forward P.toNetPrim f c s st.lrGroup st.srIn st.hiddenIn)
      ∧ (∀ st, r.2.head? = some st →
          st.srIn = acc.lastSr ∧ st.hiddenIn = acc.lastHidden)
      ∧ List.Chain'
          (fun a b => b.srIn = P.detach a.srOut ∧ b.hiddenIn = some a.hiddenOut)
          r.2
      ∧ r.1.total = pySum P
          (r.2.map (fun st => P.mse st.srOut (labels.getI st.idx))) acc.total
      ∧ r.1.image = pySum P
          (r.2.map (fun st => P.detach (P.mse st.srOut (labels.getI st.idx))))
          acc.image := by
  intro idxs
  induction idxs with
  | nil =>
    intro acc r h
    simp only [trainLoop] at h
    injection h with h1
    subst h1
    refine ⟨rfl, ?_, ?_, ?_, rfl, rfl⟩
    · intro st hst
      simp at hst
    · intro st hst
      simp at hst
    · simp
  | cons i rest ih =>
    intro acc r h
    simp only [trainLoop] at h
    split at h
    · simp at h
    · next lbl hlbl =>
      split at h
      · simp at h
      · next r' hrec =>
        injection h with h1
        subst h1
        have hlblv : lbl = labels.getI i := pyGet_ok hlbl
        subst hlblv
        obtain ⟨hidx, hfld, hhead, hchain, htot, him⟩ := ih _ _ hrec
        refine ⟨?_, ?_, ?_, ?_, ?_, ?_⟩
        · simp [hidx]
        · intro st hst
          rcases List.mem_cons.mp hst with h2 | h2
          · subst h2
            exact ⟨rfl, rfl⟩
          · exact hfld st h2
        · intro st hst
          simp only [List.head?_cons, Option.some.injEq] at hst
          subst hst
          exact ⟨rfl, rfl⟩
        · refine List.chain'_cons'.mpr ⟨?_, hchain⟩
          intro b hb
          have h3 := hhead b hb
          exact ⟨h3.1, h3.2⟩
        · exact htot
        · exact him

lemma trainLoop_ok {α : Type} [Inhabited α] (P : ModelPrim α)
    (f s c : Nat) (frames labels : List α) :
    ∀ (idxs : List Nat) (acc : TrainAcc α),
      (∀ i ∈ idxs, i < labels.length) →
      ∃ r, trainLoop P f s c frames labels idxs acc = Except.ok r := by
  intro idxs
  induction idxs with
  | nil =>
    intro acc _
    exact ⟨_, rfl⟩
  | cons i rest ih =>
    intro acc hcov
    obtain ⟨lbl, hlbl⟩ := pyGet_lt (hcov i (List.mem_cons_self i rest))
    obtain ⟨r, hr⟩ := ih
      { total := acc.total.addT P (P.mse (RlspNet.forward P.toNetPrim f c s
          (lrWindow c frames i) acc.lastSr acc.lastHidden).1 lbl)
        image := acc.image.addT P (P.detach (P.mse (RlspNet.forward
          P.toNetPrim f c s (lrWindow c frames i) acc.lastSr
          acc.lastHidden).1 lbl))
        lastSr := P.detach (RlspNet.forward P.toNetPrim f c s
          (lrWindow c frames i) acc.lastSr acc.lastHidden).1
        lastHidden := some (RlspNet.forward P.toNetPrim f c s
          (lrWindow c frames i) acc.lastSr acc.lastHidden).2 }
      (fun j hj => hcov j (List.mem_cons_of_mem _ hj))
    cases hres : trainLoop P f s c frames labels (i :: rest) acc with
    | ok r2 => exact ⟨r2, rfl⟩
    | error e =>
      simp only [trainLoop, hlbl, hr] at hres
      exact absurd hres (by simp)

lemma trainLoop_error {α : Type} [Inhabited α] (P : ModelPrim α)
    (f s c : Nat) (frames labels : List α) :
    ∀ (idxs : List Nat) (acc : TrainAcc α) (e : String),
      trainLoop P f s c frames labels idxs acc = Except.error e →
      e = "IndexError" := by
  intro idxs
  induction idxs with
  | nil =>
    intro acc e h
    simp [trainLoop] at h
  | cons i rest ih =>
    intro acc e h
    simp only [trainLoop] at h
    split at h
    · next e' hpg =>
      injection h with h1
      rw [← h1]
      exact pyGet_error hpg
    · next lbl hpg =>
      split at h
      · next e' hrec =>
        injection h with h1
        rw [← h1]
        exact ih _ _ hrec
      · simp at h

/-! ## Lemmas about the evaluation loop -/

lemma psnrStep_error {α : Type} {psnrF : α → α → ℚ}
    {labels : Option (List α)} {i : Nat} {sr : α} {acc : List ℚ} {e : String}
    (h : psnrStep psnrF labels i sr acc = Except.error e) : e = "IndexError" := by
  unfold psnrStep at h
  split at h
  · simp at h
  · split at h
    · next e2 hpg =>
      injection h with h1
      rw [← h1]
      exact pyGet_error hpg
    · simp at h

lemma psnrStep_some_ok {α : Type} [Inhabited α] (psnrF : α → α → ℚ)
    {ls : List α} {i : Nat} (hlt : i < ls.length) (sr : α) (acc : List ℚ) :
    psnrStep psnrF (some ls) i sr acc
      = Except.ok (acc ++ [psnrF sr (ls.getI i)]) := by
  obtain ⟨v, hv⟩ := pyGet_lt hlt
  have hvv := pyGet_ok hv
  simp only [psnrStep, hv, hvv]

lemma psnrStep_ok_char {α : Type} [Inhabited α] {psnrF : α → α → ℚ}
    {labels : Option (List α)} {i : Nat} {sr : α} {acc v : List ℚ}
    (h : psnrStep psnrF labels i sr acc = Except.ok v) :
    (labels = none ∧ v = acc)
    ∨ ∃ ls, labels = some ls ∧ v = acc ++ [psnrF sr (ls.getI i)] := by
  rcases labels with _ | ls
  · simp only [psnrStep] at h
    injection h with h1
    exact Or.inl ⟨rfl, h1.symm⟩
  · simp only [psnrStep] at h
    split at h
    · simp at h
    · next lbl hpg =>
      injection h with h1
      refine Or.inr ⟨ls, rfl, ?_⟩
      rw [← h1, pyGet_ok hpg]

lemma evalLoop_spec {α : Type} [Inhabited α] (P : ModelPrim α)
    (psnrF : α → α → ℚ) (f s c : Nat) (frames : List α)
    (labels : Option (List α)) :
    ∀ (idxs : List Nat) (acc : EvalAcc α) (r : EvalAcc α × List (Step α)),
      evalLoop P psnrF f s c frames labels idxs acc = Except.ok r →
      r.2.map (fun st => st.idx) = idxs
      ∧ (∀ st ∈ r.2,
          st.lrGroup = lrWindow c frames st.idx
          ∧ (st.srOut, st.hiddenOut)
              = RlspNet.forward P.toNetPrim f c s st.lrGroup st.srIn st.hiddenIn)
      ∧ (∀ st, r.2.head? = some st → st.srIn = acc.lastSr)
      ∧ List.Chain' (fun a b => b.srIn = P.detach a.srOut) r.2
      ∧ (∀ st ∈ r.2, st.hiddenIn = acc.lastHidden)
      ∧ r.1.predicts
          = acc.predicts ++ r.2.map (fun st => P.detach st.srOut)
      ∧ (labels = none → r.1.psnr = acc.psnr)
      ∧ (∀ ls, labels = some ls →
          r.1.psnr
            = acc.psnr
              ++ r.2.map (fun st => psnrF st.srOut (ls.getI st.idx))) := by
  intro idxs
  induction idxs with
  | nil =>
    intro acc r h
    simp only [evalLoop] at h
    injection h with h1
    subst h1
    refine ⟨rfl, ?_, ?_, ?_, ?_, by simp, fun _ => rfl, fun ls hls => by simp⟩
    · intro st hst
      simp at hst
    · intro st hst
      simp at hst
    · simp
    · intro st hst
      simp at hst
  | cons i rest ih =>
    intro acc r h
    simp only [evalLoop] at h
    split at h
    · simp at h
    · next newPsnr hpe =>
      split at h
      · simp at h
      · next r' hrec =>
        injection h with h1
        subst h1
        obtain ⟨hidx, hfld, hhead, hchain, hhid, hpred, hpn, hps⟩ :=
          ih _ _ hrec
        refine ⟨?_, ?_, ?_, ?_, ?_, ?_, ?_, ?_⟩
        · simp [hidx]
        · intro st hst
          rcases List.mem_cons.mp hst with h2 | h2
          · subst h2
            exact ⟨rfl, rfl⟩
          · exact hfld st h2
        · intro st hst
          simp only [List.head?_cons, Option.some.injEq] at hst
          subst hst
          rfl
        · refine List.chain'_cons'.mpr ⟨?_, hchain⟩
          intro b hb
          exact hhead b hb
        · intro st hst
          rcases List.mem_cons.mp hst with h2 | h2
          · subst h2
            rfl
          · exact (hhid st h2).trans rfl
        · rw [hpred]
          simp
        · intro hnone
          subst hnone
          have hnp : newPsnr = acc.psnr := by
            rcases psnrStep_ok_char hpe with ⟨-, h2⟩ | ⟨ls, hls, -⟩
            · exact h2
            · cases hls
          exact (hpn rfl).trans hnp
        · intro ls hls
          subst hls
          rcases psnrStep_ok_char hpe with ⟨h2, -⟩ | ⟨ls2, hls2, h3⟩
          · cases h2
          · injection hls2 with h4
            subst h4
            have h6 := hps ls rfl
            simp only [List.map_cons]
            simp [h6, h3]

lemma evalLoop_ok {α : Type} [Inhabited α] (P : ModelPrim α)
    (psnrF : α → α → ℚ) (f s c : Nat) (frames : List α)
    (labels : Option (List α)) :
    ∀ (idxs : List Nat) (acc : EvalAcc α),
      (labels = none ∨ ∃ ls, labels = some ls ∧ ∀ i ∈ idxs, i < ls.length) →
      ∃ r, evalLoop P psnrF f s c frames labels idxs acc = Except.ok r := by
  intro idxs
  induction idxs with
  | nil =>
    intro acc _
    exact ⟨_, rfl⟩
  | cons i rest ih =>
    intro acc hcov
    have hcov' : labels = none
        ∨ ∃ ls, labels = some ls ∧ ∀ j ∈ rest, j < ls.length := by
      rcases hcov with h | ⟨ls, hls, hc⟩
      · exact Or.inl h
      · exact Or.inr ⟨ls, hls, fun j hj => hc j (List.mem_cons_of_mem _ hj)⟩
    have hpe : ∃ newPsnr, psnrStep psnrF labels i
        (RlspNet.forward P.toNetPrim f c s (lrWindow c frames i) acc.lastSr
          acc.lastHidden).1 acc.psnr = Except.ok newPsnr := by
      rcases hcov with h | ⟨ls, hls, hc⟩
      · subst h
        exact ⟨_, rfl⟩
      · subst hls
        exact ⟨_, psnrStep_some_ok psnrF (hc i (List.mem_cons_self i rest)) _ _⟩
    obtain ⟨newPsnr, hnp⟩ := hpe
    obtain ⟨r, hr⟩ := ih
      { lastSr := P.detach (RlspNet.forward P.toNetPrim f c s
          (lrWindow c frames i) acc.lastSr acc.lastHidden).1
        lastHidden := acc.lastHidden
        predicts := acc.predicts ++ [P.detach (RlspNet.forward P.toNetPrim
          f c s (lrWindow c frames i) acc.lastSr acc.lastHidden).1]
        psnr := newPsnr }
      hcov'
    cases hres : evalLoop P psnrF f s c frames labels (i :: rest) acc with
    | ok r2 => exact ⟨r2, rfl⟩
    | error e =>
      simp only [evalLoop, hnp, hr] at hres
      exact absurd hres (by simp)

lemma evalLoop_error {α : Type} [Inhabited α] (P : ModelPrim α)
    (psnrF : α → α → ℚ) (f s c : Nat) (frames : List α)
    (labels : Option (List α)) :
    ∀ (idxs : List Nat) (acc : EvalAcc α) (e : String),
      evalLoop P psnrF f s c frames labels idxs acc = Except.error e →
      e = "IndexError" := by
  intro idxs
  induction idxs with
  | nil =>
    intro acc e h
    simp [evalLoop] at h
  | cons i rest ih =>
    intro acc e h
    simp only [evalLoop] at h
    split at h
    · next e' hpe =>
      injection h with h1
      rw [← h1]
      exact psnrStep_error hpe
    · next newPsnr hpe =>
      split at h
      · next e' hrec =>
        injection h with h1
        rw [← h1]
        exact ih _ _ hrec
      · simp at h

/-! ## Success-shape lemmas for the two entry points -/

lemma trainSteps_eq {α : Type} [Inhabited α] (P : ModelPrim α)
    (f s c : Nat) (frames labels : List α) (r : TrainAcc α × List (Step α))
    (hr : trainLoop P f s c frames labels (loopIdx c frames.length)
      (trainAcc0 P s frames) = Except.ok r) :
    trainSteps P f s c frames labels = r.2 := by
  simp only [trainSteps, hr]

lemma evalSteps_eq {α : Type} [Inhabited α] (P : ModelPrim α)
    (psnrF : α → α → ℚ) (f s c : Nat) (frames : List α)
    (labels : Option (List α)) (r : EvalAcc α × List (Step α))
    (hr : evalLoop P psnrF f s c frames labels (loopIdx c frames.length)
      (evalAcc0 P s frames) = Except.ok r) :
    evalSteps P psnrF f s c frames labels = r.2 := by
  simp only [evalSteps, hr]

lemma evalPsnrs_eq {α : Type} [Inhabited α] (P : ModelPrim α)
    (psnrF : α → α → ℚ) (f s c : Nat) (frames : List α)
    (labels : Option (List α)) (r : EvalAcc α × List (Step α))
    (hr : evalLoop P psnrF f s c frames labels (loopIdx c frames.length)
      (evalAcc0 P s frames) = Except.ok r) :
    evalPsnrs P psnrF f s c frames labels = r.1.psnr := by
  simp only [evalPsnrs, hr]

lemma cover_of_le {c n m : Nat} (h : n ≤ m) : ∀ i ∈ loopIdx c n, i < m := by
  intro i hi
  have h2 := (mem_loopIdx hi).2
  omega

lemma trainSteps_idx {α : Type} [Inhabited α] (P : ModelPrim α)
    (f s c : Nat) (frames labels : List α)
    (hcov : ∀ i ∈ loopIdx c frames.length, i < labels.length) :
    (trainSteps P f s c frames labels).map (fun st => st.idx)
      = loopIdx c frames.length := by
  obtain ⟨r, hr⟩ := trainLoop_ok P f s c frames labels _ _ hcov
  rw [trainSteps_eq P f s c frames labels r hr]
  exact (trainLoop_spec P f s c frames labels _ _ r hr).1

lemma evalSteps_idx {α : Type} [Inhabited α] (P : ModelPrim α)
    (psnrF : α → α → ℚ) (f s c : Nat) (frames : List α)
    (labels : Option (List α))
    (hcov : labels = none
      ∨ ∃ ls, labels = some ls ∧ ∀ i ∈ loopIdx c frames.length, i < ls.length) :
    (evalSteps P psnrF f s c frames labels).map (fun st => st.idx)
      = loopIdx c frames.length := by
  obtain ⟨r, hr⟩ := evalLoop_ok P psnrF f s c frames labels _ _ hcov
  rw [evalSteps_eq P psnrF f s c frames labels r hr]
  exact (evalLoop_spec P psnrF f s c frames labels _ _ r hr).1

lemma trainSteps_length {α : Type} [Inhabited α] (P : ModelPrim α)
    (f s c : Nat) (frames labels : List α)
    (hcov : ∀ i ∈ loopIdx c frames.length, i < labels.length) :
    (trainSteps P f s c frames labels).length
      = frames.length - 2 * (c / 2) := by
  have h := congrArg List.length (trainSteps_idx P f s c frames labels hcov)
  simpa [length_loopIdx] using h

lemma evalSteps_length {α : Type} [Inhabited α] (P : ModelPrim α)
    (psnrF : α → α → ℚ) (f s c : Nat) (frames : List α)
    (labels : Option (List α))
    (hcov : labels = none
      ∨ ∃ ls, labels = some ls ∧ ∀ i ∈ loopIdx c frames.length, i < ls.length) :
    (evalSteps P psnrF f s c frames labels).length
      = frames.length - 2 * (c / 2) := by
  have h := congrArg List.length
    (evalSteps_idx P psnrF f s c frames labels hcov)
  simpa [length_loopIdx] using h

lemma train_eq_ok {α : Type} [Inhabited α] (P : ModelPrim α) (f s c : Nat)
    (param_groups : List ℚ) (frames labels : List α) (lr? : Option ℚ)
    (hne : frames ≠ []) (hC : loopIdx c frames.length ≠ [])
    (hcov : ∀ i ∈ loopIdx c frames.length, i < labels.length) :
    ∃ t u,
      RLSP.train P f s c param_groups frames labels lr?
        = Except.ok
            { dict := [("total_loss", P.divNat (P.detach t) frames.length),
                       ("image_loss", P.divNat u frames.length)],
              lrs := setLearningRate param_groups lr?,
              events := [.zeroGrad, .backward, .step],
              steps := trainSteps P f s c frames labels }
      ∧ PyVal.tensor t
          = pySum P ((trainSteps P f s c frames labels).map
              (fun st => P.mse st.srOut (labels.getI st.idx))) (.int 0)
      ∧ PyVal.tensor u
          = pySum P ((trainSteps P f s c frames labels).map
              (fun st => P.detach (P.mse st.srOut (labels.getI st.idx))))
              (.int 0) := by
  obtain ⟨r, hr⟩ := trainLoop_ok P f s c frames labels _ _ hcov
  have hspec := trainLoop_spec P f s c frames labels _ _ r hr
  have hse := trainSteps_eq P f s c frames labels r hr
  have hsteps_ne : r.2 ≠ [] := by
    intro h0
    have h1 := hspec.1
    rw [h0] at h1
    exact hC h1.symm
  have hm1 : r.2.map (fun st => P.mse st.srOut (labels.getI st.idx)) ≠ [] := by
    simpa using hsteps_ne
  have hm2 : r.2.map (fun st => P.detach (P.mse st.srOut (labels.getI st.idx)))
      ≠ [] := by
    simpa using hsteps_ne
  obtain ⟨t, ht⟩ := pySum_exists_tensor P hm1
  obtain ⟨u, hu⟩ := pySum_exists_tensor P hm2
  have htot : r.1.total = PyVal.tensor t := by
    have h2 : r.1.total = pySum P
        (r.2.map fun st => P.mse st.srOut (labels.getI st.idx))
        (PyVal.int 0) := hspec.2.2.2.2.1
    rw [h2, ht]
  have him : r.1.image = PyVal.tensor u := by
    have h2 : r.1.image = pySum P
        (r.2.map fun st => P.detach (P.mse st.srOut (labels.getI st.idx)))
        (PyVal.int 0) := hspec.2.2.2.2.2
    rw [h2, hu]
  refine ⟨t, u, ?_, ?_, ?_⟩
  · rw [RLSP.train, pyGet_zero hne]
    simp only [hr]
    rw [htot, him, hse]
  · rw [hse]
    exact ht.symm
  · rw [hse]
    exact hu.symm

lemma eval_eq_ok {α : Type} [Inhabited α] (P : ModelPrim α)
    (psnrF : α → α → ℚ) (f s c : Nat) (w : Bool) (epoch? : Option Nat)
    (frames : List α) (labels : Option (List α)) (hne : frames ≠ [])
    (hcov : labels = none
      ∨ ∃ ls, labels = some ls ∧ ∀ i ∈ loopIdx c frames.length, i < ls.length)
    (hwl : w = false
      ∨ ∃ ep ls, epoch? = some ep ∧ labels = some ls
          ∧ (loopIdx c frames.length).getLastD 0 < ls.length) :
    RLSP.eval P psnrF f s c w epoch? frames labels
      = Except.ok
          { predicts := (evalSteps P psnrF f s c frames labels).map
              (fun st => P.detach st.srOut),
            metrics := [("psnr",
              npMean (evalPsnrs P psnrF f s c frames labels))],
            steps := evalSteps P psnrF f s c frames labels } := by
  obtain ⟨r, hr⟩ := evalLoop_ok P psnrF f s c frames labels _ _ hcov
  have hspec := evalLoop_spec P psnrF f s c frames labels _ _ r hr
  have hse := evalSteps_eq P psnrF f s c frames labels r hr
  have hpe := evalPsnrs_eq P psnrF f s c frames labels r hr
  have hpred : r.1.predicts = r.2.map (fun st => P.detach st.srOut) := by
    have h2 : r.1.predicts = (evalAcc0 P s frames).predicts
        ++ r.2.map (fun st => P.detach st.srOut) := hspec.2.2.2.2.2.1
    simpa [evalAcc0] using h2
  rcases hwl with hw | ⟨ep, ls, hep, hls, hlen⟩
  · subst hw
    rw [RLSP.eval, pyGet_zero hne]
    simp only [hr, Bool.false_eq_true, if_false]
    rw [hse, hpe, hpred]
  · subst hep
    subst hls
    obtain ⟨v, hv⟩ := pyGet_lt hlen
    rw [RLSP.eval, pyGet_zero hne]
    simp only [hr, hv]
    rw [hse, hpe, hpred]
    cases w <;> rfl

lemma train_error_cases {α : Type} [Inhabited α] (P : ModelPrim α)
    (f s c : Nat) (param_groups : List ℚ) (frames labels : List α)
    (lr? : Option ℚ) (e : String)
    (h : RLSP.train P f s c param_groups frames labels lr? = Except.error e) :
    e = "IndexError"
    ∨ e = "AttributeError: int object has no attribute backward" := by
  unfold RLSP.train at h
  split at h
  · next e' hpg =>
    injection h with h1
    rw [← h1]
    exact Or.inl (pyGet_error hpg)
  · next v hpg =>
    split at h
    · next e' hrec =>
      injection h with h1
      rw [← h1]
      exact Or.inl (trainLoop_error P f s c frames labels _ _ _ hrec)
    · next r hrec =>
      split at h
      · simp at h
      · injection h with h1
        exact Or.inr h1.symm

lemma eval_error_cases {α : Type} [Inhabited α] (P : ModelPrim α)
    (psnrF : α → α → ℚ) (f s c : Nat) (w : Bool) (epoch? : Option Nat)
    (frames : List α) (labels : Option (List α)) (e : String)
    (h : RLSP.eval P psnrF f s c w epoch? frames labels = Except.error e) :
    e = "IndexError" ∨ e = "KeyError: epoch"
    ∨ e = "TypeError: NoneType object is not subscriptable" := by
  unfold RLSP.eval at h
  split at h
  · next e' hpg =>
    injection h with h1
    rw [← h1]
    exact Or.inl (pyGet_error hpg)
  · next v hpg =>
    split at h
    · next e' hrec =>
      injection h with h1
      rw [← h1]
      exact Or.inl (evalLoop_error P psnrF f s c frames labels _ _ _ hrec)
    · next r hrec =>
      split at h
      · split at h
        · injection h with h1
          exact Or.inr (Or.inl h1.symm)
        · split at h
          · injection h with h1
            exact Or.inr (Or.inr h1.symm)
          · next ls =>
            dsimp only at h
            split at h
            · next e2 hpg2 =>
              injection h with h1
              rw [← h1]
              exact Or.inl (pyGet_error hpg2)
            · simp at h
      · simp at h

lemma lrWindow_eq_range' {α : Type} [Inhabited α] (c : Nat) (frames : List α)
    (i : Nat) :
    lrWindow c frames i = (List.range' (i - c / 2) c).map frames.getI := by
  rw [lrWindow, List.range'_eq_map_range, List.map_map]
  rfl

lemma trainSteps_windowStep {α : Type} [Inhabited α] (P : ModelPrim α)
    (f s c : Nat) (frames labels : List α)
    (hcov : ∀ i ∈ loopIdx c frames.length, i < labels.length) (k : Nat)
    (hk : k < (trainSteps P f s c frames labels).length) :
    windowStep P.toNetPrim f s c frames
      ((trainSteps P f s c frames labels).getI k) := by
  obtain ⟨r, hr⟩ := trainLoop_ok P f s c frames labels _ _ hcov
  have hse := trainSteps_eq P f s c frames labels r hr
  have hspec := trainLoop_spec P f s c frames labels _ _ r hr
  rw [hse] at hk
  rw [hse, List.getI_eq_get _ hk]
  have hmem : r.2.get ⟨k, hk⟩ ∈ r.2 := List.get_mem _ _ _
  have hfields := hspec.2.1 _ hmem
  have hidx : (r.2.get ⟨k, hk⟩).idx ∈ loopIdx c frames.length := by
    rw [← hspec.1]
    exact List.mem_map_of_mem _ hmem
  exact ⟨(mem_loopIdx hidx).1,
    hfields.1.trans (lrWindow_eq_range' c frames _), hfields.2⟩

lemma evalSteps_windowStep {α : Type} [Inhabited α] (P : ModelPrim α)
    (psnrF : α → α → ℚ) (f s c : Nat) (frames : List α)
    (labels : Option (List α))
    (hcov : labels = none
      ∨ ∃ ls, labels = some ls ∧ ∀ i ∈ loopIdx c frames.length, i < ls.length)
    (m : Nat) (hm : m < (evalSteps P psnrF f s c frames labels).length) :
    windowStep P.toNetPrim f s c frames
      ((evalSteps P psnrF f s c frames labels).getI m) := by
  obtain ⟨r, hr⟩ := evalLoop_ok P psnrF f s c frames labels _ _ hcov
  have hse := evalSteps_eq P psnrF f s c frames labels r hr
  have hspec := evalLoop_spec P psnrF f s c frames labels _ _ r hr
  rw [hse] at hm
  rw [hse, List.getI_eq_get _ hm]
  have hmem : r.2.get ⟨m, hm⟩ ∈ r.2 := List.get_mem _ _ _
  have hfields := hspec.2.1 _ hmem
  have hidx : (r.2.get ⟨m, hm⟩).idx ∈ loopIdx c frames.length := by
    rw [← hspec.1]
    exact List.mem_map_of_mem _ hmem
  exact ⟨(mem_loopIdx hidx).1,
    hfields.1.trans (lrWindow_eq_range' c frames _), hfields.2⟩

/-! ## Shape lemmas -/

lemma catPair_some (N k c0 H W : Nat) :
    catPair (some ⟨N, k, H, W⟩) (some ⟨N, c0, H, W⟩)
      = some ⟨N, k + c0, H, W⟩ := by
  simp [catPair]

lemma catShape_replicate_aux (N c0 H W : Nat) :
    ∀ (m k : Nat),
      List.foldl catPair (some ⟨N, k, H, W⟩)
          (List.replicate m (some ⟨N, c0, H, W⟩))
        = some ⟨N, k + m * c0, H, W⟩ := by
  intro m
  induction m with
  | zero => intro k; simp
  | succ m ih =>
    intro k
    rw [List.replicate_succ, List.foldl_cons, catPair_some, ih (k + c0)]
    have : k + c0 + m * c0 = k + (m + 1) * c0 := by
      rw [Nat.succ_mul]
      omega
    rw [this]

lemma catShape_replicate (N c0 H W : Nat) {d : Nat} (hd : 1 ≤ d) :
    catShape (List.replicate d (some ⟨N, c0, H, W⟩))
      = some ⟨N, d * c0, H, W⟩ := by
  cases d with
  | zero => omega
  | succ d' =>
    rw [List.replicate_succ, catShape, catShape_replicate_aux]
    have : c0 + d' * c0 = (d' + 1) * c0 := by
      rw [Nat.succ_mul]
      omega
    rw [this]

lemma convShape_apply {c0 cin : Nat} (N cout H W : Nat) (h : c0 = cin) :
    convShape cin cout (some ⟨N, c0, H, W⟩) = some ⟨N, cout, H, W⟩ := by
  simp [convShape, h]

lemma iterate_convShape (fc N H W : Nat) (m : Nat) :
    (convShape fc fc)^[m] (some ⟨N, fc, H, W⟩) = some ⟨N, fc, H, W⟩ :=
  Function.iterate_fixed (convShape_apply N fc H W rfl) m

lemma headI_replicate {α : Type} [Inhabited α] {d : Nat} (hd : 1 ≤ d)
    (a : α) : (List.replicate d a).headI = a := by
  cases d with
  | zero => omega
  | succ d' => rfl

lemma getI_replicate {α : Type} [Inhabited α] {d i : Nat} (hi : i < d)
    (a : α) : (List.replicate d a).getI i = a := by
  rw [List.getI_eq_get _ (by simpa using hi), List.get_replicate]

lemma head?_headI {α : Type} [Inhabited α] {l : List α} (h : l ≠ []) :
    l.head? = some l.headI := by
  cases l with
  | nil => exact absurd rfl h
  | cons a t => rfl

/-! ## Claim theorems -/

/-- C1: the claim says the hidden state produced at step `i` is passed to
step `i + 1` in both `RLSP.train` and `RLSP.eval`.  The code violates this in
`RLSP.eval`: the loop never assigns `last_hidden` (source lines 125-131), so
on a 4-frame sequence with `clips = 3` every evaluation step receives
`hiddenIn = none` (which `RlspNet.forward` replaces by a zero tensor), while
the training loop on the same inputs does pass step 1's produced hidden
state into step 2 (source line 100). -/
theorem C1_eval_hidden_state_not_threaded :
    hiddenDemoEval.steps.map (fun st => st.hiddenIn) = [none, none]
  ∧ hiddenDemoTrain.steps.map (fun st => st.hiddenIn)
      = [none, some hiddenDemoTrain.steps.headI.hiddenOut] :=
  ⟨rfl, rfl⟩

/-- C2 counterexample: the claim quantifies over every training call with
`n ≥ clips` input frames, but with `clips = 4` and `n = 4` the processed
index range `[clips // 2, n - clips // 2) = [2, 2)` is empty, `total_loss`
is still the Python int `0`, and `total_loss.backward()` raises instead of
returning a loss dictionary. -/
theorem C2_counterexample :
    RLSP.train symPrim 64 2 4 [] (symFrames 4) (symLabels 4) none
      = Except.error "AttributeError: int object has no attribute backward" :=
  rfl

/-- C2 (amended): for every training call with labels covering the input
frames whose processed index range `[clips // 2, n - clips // 2)` is
non-empty (equivalently `n ≥ clips` for odd `clips`), the per-step MSE
losses are taken at exactly those window-center indices, the call performs
exactly one backward and one optimizer step, and the returned `image_loss`
(and `total_loss`) value is the sum of the per-step MSE values divided by
`n`, the total number of input frames. -/
theorem C2_train_loss_sum (g : RatOps) (f s c : Nat) (param_groups : List ℚ)
    (frames labels : List ℚ) (lr? : Option ℚ) (hc : 1 ≤ c)
    (hn : 2 * (c / 2) < frames.length)
    (hl : labels.length = frames.length) :
    (RLSP.train g.prim f s c param_groups frames labels lr?).map
        (fun o => o.dict)
      = Except.ok
          [("total_loss",
             ((trainSteps g.prim f s c frames labels).map
                 (fun st => g.mse st.srOut (labels.getI st.idx))).sum
               / (frames.length : ℚ)),
           ("image_loss",
             ((trainSteps g.prim f s c frames labels).map
                 (fun st => g.mse st.srOut (labels.getI st.idx))).sum
               / (frames.length : ℚ))]
  ∧ (RLSP.train g.prim f s c param_groups frames labels lr?).map
        (fun o => o.steps.map fun st => st.idx)
      = Except.ok (List.range' (c / 2) (frames.length - 2 * (c / 2)))
  ∧ (RLSP.train g.prim f s c param_groups frames labels lr?).map
        (fun o => (o.events.count OptEvent.backward,
                   o.events.count OptEvent.step))
      = Except.ok (1, 1) := by
  have hcov : ∀ i ∈ loopIdx c frames.length, i < labels.length :=
    cover_of_le (le_of_eq hl.symm)
  have hne : frames ≠ [] := by
    intro h0
    rw [h0] at hn
    simp at hn
  have hC := loopIdx_ne_nil hn
  obtain ⟨t, u, hok, ht, hu⟩ :=
    train_eq_ok g.prim f s c param_groups frames labels lr? hne hC hcov
  have hsteps_ne : trainSteps g.prim f s c frames labels ≠ [] := by
    intro h0
    have h1 := trainSteps_idx g.prim f s c frames labels hcov
    rw [h0] at h1
    exact hC h1.symm
  have htv : t = ((trainSteps g.prim f s c frames labels).map
      (fun st => g.mse st.srOut (labels.getI st.idx))).sum := by
    have h2 := ht.trans (rat_pySum g (by simpa using hsteps_ne))
    exact PyVal.tensor.inj h2
  have huv : u = ((trainSteps g.prim f s c frames labels).map
      (fun st => g.mse st.srOut (labels.getI st.idx))).sum := by
    have h2 := hu.trans (rat_pySum g (by simpa using hsteps_ne))
    exact PyVal.tensor.inj h2
  refine ⟨?_, ?_, ?_⟩
  · rw [hok]
    simp only [Except.map, htv, huv]
    rfl
  · rw [hok]
    simp only [Except.map, Except.ok.injEq]
    rw [trainSteps_idx g.prim f s c frames labels hcov, loopIdx_eq]
  · rw [hok]
    rfl

/-- C2 witness: the amended training-loss theorem instantiated at a concrete
3-frame call with `clips = 3`. -/
theorem C2_witness :
    (1 ≤ 3 ∧ 2 * (3 / 2) < ([0, 0, 0] : List ℚ).length
      ∧ ([0, 0, 0] : List ℚ).length = ([0, 0, 0] : List ℚ).length)
  ∧ ((RLSP.train zeroRatOps.prim 64 2 3 [] [0, 0, 0] [0, 0, 0] none).map
        (fun o => o.dict)
      = Except.ok
          [("total_loss",
             ((trainSteps zeroRatOps.prim 64 2 3 [0, 0, 0] [0, 0, 0]).map
                 (fun st => zeroRatOps.mse st.srOut
                   (([0, 0, 0] : List ℚ).getI st.idx))).sum
               / (([0, 0, 0] : List ℚ).length : ℚ)),
           ("image_loss",
             ((trainSteps zeroRatOps.prim 64 2 3 [0, 0, 0] [0, 0, 0]).map
                 (fun st => zeroRatOps.mse st.srOut
                   (([0, 0, 0] : List ℚ).getI st.idx))).sum
               / (([0, 0, 0] : List ℚ).length : ℚ))]
    ∧ (RLSP.train zeroRatOps.prim 64 2 3 [] [0, 0, 0] [0, 0, 0] none).map
          (fun o => o.steps.map fun st => st.idx)
        = Except.ok (List.range' (3 / 2)
            (([0, 0, 0] : List ℚ).length - 2 * (3 / 2)))
    ∧ (RLSP.train zeroRatOps.prim 64 2 3 [] [0, 0, 0] [0, 0, 0] none).map
          (fun o => (o.events.count OptEvent.backward,
                     o.events.count OptEvent.step))
        = Except.ok (1, 1)) :=
  ⟨⟨by decide, by decide, rfl⟩,
    C2_train_loss_sum zeroRatOps 64 2 3 [] [0, 0, 0] [0, 0, 0] none
      (by decide) (by decide) rfl⟩

/-- C3 counterexample: the claim quantifies over every evaluation call with
labels and `n ≥ clips` input frames, but with `clips = 4` and `n = 4` no
window-center index is processed and the returned `psnr` entry is numpy's
`NaN` (`np.mean` of an empty list), which is not the arithmetic mean (a
number) of the per-frame PSNR values over the (empty) processed index set. -/
theorem C3_counterexample :
    (RLSP.eval symPrim (fun _ _ => 0) 64 2 4 false none (symFrames 4)
        (some (symLabels 4))).map
        (fun o => (o.metrics, o.steps.map fun st => st.idx))
      = Except.ok ([("psnr", NpMean.nan)], [])
  ∧ NpMean.nan
      ≠ NpMean.val ((([] : List ℚ).sum) / ((([] : List ℚ).length : Nat) : ℚ)) :=
  ⟨rfl, by decide⟩

/-- C3 (amended): for every evaluation call with labels covering the input
frames, a non-empty processed index range (equivalently `n ≥ clips` for odd
`clips`), and — when a summary writer is registered — the `epoch` kwarg
supplied, the returned `psnr` metric is the arithmetic mean — the sum
divided by the number of processed steps — of the per-step PSNR values
between the predicted frame and the label at the window-center index, taken
over exactly the processed indices `[clips // 2, n - clips // 2)`. -/
theorem C3_eval_psnr_mean {α : Type} [Inhabited α] (P : ModelPrim α)
    (psnrF : α → α → ℚ) (f s c : Nat) (w : Bool) (epoch? : Option Nat)
    (frames ls : List α) (hc : 1 ≤ c) (hn : 2 * (c / 2) < frames.length)
    (hl : ls.length = frames.length)
    (hwe : w = false ∨ ∃ ep, epoch? = some ep) :
    (RLSP.eval P psnrF f s c w epoch? frames (some ls)).map
        (fun o => o.metrics)
      = Except.ok
          [("psnr", NpMean.val
             (((evalSteps P psnrF f s c frames (some ls)).map
                 (fun st => psnrF st.srOut (ls.getI st.idx))).sum
               / (((frames.length - 2 * (c / 2) : Nat)) : ℚ)))]
  ∧ (RLSP.eval P psnrF f s c w epoch? frames (some ls)).map
        (fun o => o.steps.map fun st => st.idx)
      = Except.ok (List.range' (c / 2) (frames.length - 2 * (c / 2))) := by
  have hne : frames ≠ [] := by
    intro h0
    rw [h0] at hn
    simp at hn
  have hcovLoop : ∀ i ∈ loopIdx c frames.length, i < ls.length :=
    cover_of_le (le_of_eq hl.symm)
  have hcov : (some ls : Option (List α)) = none
      ∨ ∃ l2, (some ls : Option (List α)) = some l2
          ∧ ∀ i ∈ loopIdx c frames.length, i < l2.length :=
    Or.inr ⟨ls, rfl, hcovLoop⟩
  have hwl : w = false
      ∨ ∃ ep l2, epoch? = some ep ∧ (some ls : Option (List α)) = some l2
          ∧ (loopIdx c frames.length).getLastD 0 < l2.length := by
    rcases hwe with h | ⟨ep, hep⟩
    · exact Or.inl h
    · refine Or.inr ⟨ep, ls, hep, rfl, ?_⟩
      rw [hl]
      exact loopIdx_getLastD_lt (by omega)
  have hok := eval_eq_ok P psnrF f s c w epoch? frames (some ls) hne hcov hwl
  obtain ⟨r, hr⟩ := evalLoop_ok P psnrF f s c frames (some ls) _ _ hcov
  have hse := evalSteps_eq P psnrF f s c frames (some ls) r hr
  have hpev := evalPsnrs_eq P psnrF f s c frames (some ls) r hr
  have hspec := evalLoop_spec P psnrF f s c frames (some ls) _ _ r hr
  have hpsnr : evalPsnrs P psnrF f s c frames (some ls)
      = (evalSteps P psnrF f s c frames (some ls)).map
          (fun st => psnrF st.srOut (ls.getI st.idx)) := by
    rw [hpev, hse]
    have h2 := hspec.2.2.2.2.2.2.2 ls rfl
    simpa [evalAcc0] using h2
  have hlen2 : ((evalSteps P psnrF f s c frames (some ls)).map
      (fun st => psnrF st.srOut (ls.getI st.idx))).length
        = frames.length - 2 * (c / 2) := by
    rw [List.length_map, evalSteps_length P psnrF f s c frames (some ls) hcov]
  refine ⟨?_, ?_⟩
  · rw [hok]
    simp only [Except.map, Except.ok.injEq]
    have hnem : ¬ ((evalSteps P psnrF f s c frames (some ls)).map
        (fun st => psnrF st.srOut (ls.getI st.idx))).isEmpty = true := by
      intro hemp
      have h3 := List.isEmpty_iff.mp hemp
      rw [h3] at hlen2
      simp only [List.length_nil] at hlen2
      omega
    rw [hpsnr, npMean, if_neg hnem, hlen2]
  · rw [hok]
    simp only [Except.map, Except.ok.injEq]
    rw [evalSteps_idx P psnrF f s c frames (some ls) hcov, loopIdx_eq]

/-- C3 witness: the amended PSNR-mean theorem instantiated at a concrete
3-frame evaluation call with `clips = 3`, no summary writer. -/
theorem C3_witness :
    (1 ≤ 3 ∧ 2 * (3 / 2) < (symFrames 3).length
      ∧ (symLabels 3).length = (symFrames 3).length
      ∧ (false = false ∨ ∃ ep, (none : Option Nat) = some ep))
  ∧ ((RLSP.eval symPrim (fun _ _ => 0) 64 2 3 false none (symFrames 3)
        (some (symLabels 3))).map (fun o => o.metrics)
      = Except.ok
          [("psnr", NpMean.val
             (((evalSteps symPrim (fun _ _ => 0) 64 2 3 (symFrames 3)
                   (some (symLabels 3))).map
                 (fun st => (fun _ _ => (0 : ℚ)) st.srOut
                   ((symLabels 3).getI st.idx))).sum
               / ((((symFrames 3).length - 2 * (3 / 2) : Nat)) : ℚ)))]
    ∧ (RLSP.eval symPrim (fun _ _ => 0) 64 2 3 false none (symFrames 3)
          (some (symLabels 3))).map (fun o => o.steps.map fun st => st.idx)
        = Except.ok (List.range' (3 / 2)
            ((symFrames 3).length - 2 * (3 / 2)))) :=
  ⟨⟨by decide, by decide, rfl, Or.inl rfl⟩,
    C3_eval_psnr_mean symPrim (fun _ _ => 0) 64 2 3 false none (symFrames 3)
      (symLabels 3) (by decide) (by decide) rfl (Or.inl rfl)⟩

/-- C4: at every processed step of both `RLSP.train` and `RLSP.eval` (with
labels covering the processed indices, as a completed call requires), the
network is fed the sliding window of exactly `clips` consecutive input
frames starting at `idx - clips // 2` — for odd `clips` the window spans
exactly `frames[idx - clips//2], ..., frames[idx + clips//2]`, centered on
`idx` (the last conjuncts equate the last window offset with
`idx + clips//2`) — together with the recorded feedback frame and hidden
state, and the step outputs are `RlspNet.forward` of exactly those inputs
(whose body concatenates the window, hidden state and the detached
space-to-depth feedback along the channel dimension, via
`RLSPCell.forward`). -/
theorem C4_sliding_window {α : Type} [Inhabited α] (P : ModelPrim α)
    (psnrF : α → α → ℚ) (f s c : Nat) (param_groups : List ℚ)
    (frames labels : List α) (lr? : Option ℚ) (labels? : Option (List α))
    (epoch? : Option Nat) (k m : Nat) (hodd : c % 2 = 1)
    (hl : labels.length = frames.length)
    (hcove : labels? = none
      ∨ ∃ ls, labels? = some ls ∧ ls.length = frames.length)
    (hk : k < (trainSteps P f s c frames labels).length)
    (hm : m < (evalSteps P psnrF f s c frames labels?).length) :
    (RLSP.train P f s c param_groups frames labels lr?).map (fun o => o.steps)
      = Except.ok (trainSteps P f s c frames labels)
  ∧ (RLSP.eval P psnrF f s c false epoch? frames labels?).map
        (fun o => o.steps)
      = Except.ok (evalSteps P psnrF f s c frames labels?)
  ∧ windowStep P.toNetPrim f s c frames
      ((trainSteps P f s c frames labels).getI k)
  ∧ windowStep P.toNetPrim f s c frames
      ((evalSteps P psnrF f s c frames labels?).getI m)
  ∧ ((trainSteps P f s c frames labels).getI k).idx - c / 2 + (c - 1)
      = ((trainSteps P f s c frames labels).getI k).idx + c / 2
  ∧ ((evalSteps P psnrF f s c frames labels?).getI m).idx - c / 2 + (c - 1)
      = ((evalSteps P psnrF f s c frames labels?).getI m).idx + c / 2 := by
  have hcov : ∀ i ∈ loopIdx c frames.length, i < labels.length :=
    cover_of_le (le_of_eq hl.symm)
  have hcove' : labels? = none
      ∨ ∃ ls, labels? = some ls
          ∧ ∀ i ∈ loopIdx c frames.length, i < ls.length := by
    rcases hcove with h | ⟨ls, hls, hlen⟩
    · exact Or.inl h
    · exact Or.inr ⟨ls, hls, cover_of_le (le_of_eq hlen.symm)⟩
  have hn : 2 * (c / 2) < frames.length := by
    have hlen := trainSteps_length P f s c frames labels hcov
    omega
  have hne : frames ≠ [] := by
    intro h0
    rw [h0] at hn
    simp at hn
  have hC := loopIdx_ne_nil hn
  have hwt := trainSteps_windowStep P f s c frames labels hcov k hk
  have hwe2 := evalSteps_windowStep P psnrF f s c frames labels? hcove' m hm
  obtain ⟨t, u, hok, -, -⟩ :=
    train_eq_ok P f s c param_groups frames labels lr? hne hC hcov
  have heok := eval_eq_ok P psnrF f s c false epoch? frames labels? hne
    hcove' (Or.inl rfl)
  refine ⟨by rw [hok]; rfl, by rw [heok]; rfl, hwt, hwe2, ?_, ?_⟩
  · have h1 := hwt.1
    omega
  · have h1 := hwe2.1
    omega

/-- C4 witness: the sliding-window theorem instantiated at the first
processed step of a concrete 3-frame training and evaluation call with
`clips = 3`. -/
theorem C4_witness :
    (3 % 2 = 1
      ∧ (symLabels 3).length = (symFrames 3).length
      ∧ ((none : Option (List TExpr)) = none
          ∨ ∃ ls, (none : Option (List TExpr)) = some ls
              ∧ ls.length = (symFrames 3).length)
      ∧ 0 < (trainSteps symPrim 64 2 3 (symFrames 3) (symLabels 3)).length
      ∧ 0 < (evalSteps symPrim (fun _ _ => 0) 64 2 3 (symFrames 3)
              none).length)
  ∧ ((RLSP.train symPrim 64 2 3 [] (symFrames 3) (symLabels 3) none).map
        (fun o => o.steps)
      = Except.ok (trainSteps symPrim 64 2 3 (symFrames 3) (symLabels 3))
    ∧ (RLSP.eval symPrim (fun _ _ => 0) 64 2 3 false none (symFrames 3)
          none).map (fun o => o.steps)
        = Except.ok (evalSteps symPrim (fun _ _ => 0) 64 2 3 (symFrames 3)
            none)
    ∧ windowStep symPrim.toNetPrim 64 2 3 (symFrames 3)
        ((trainSteps symPrim 64 2 3 (symFrames 3) (symLabels 3)).getI 0)
    ∧ windowStep symPrim.toNetPrim 64 2 3 (symFrames 3)
        ((evalSteps symPrim (fun _ _ => 0) 64 2 3 (symFrames 3) none).getI 0)
    ∧ ((trainSteps symPrim 64 2 3 (symFrames 3) (symLabels 3)).getI 0).idx
          - 3 / 2 + (3 - 1)
        = ((trainSteps symPrim 64 2 3 (symFrames 3)
            (symLabels 3)).getI 0).idx + 3 / 2
    ∧ ((evalSteps symPrim (fun _ _ => 0) 64 2 3 (symFrames 3)
            none).getI 0).idx - 3 / 2 + (3 - 1)
        = ((evalSteps symPrim (fun _ _ => 0) 64 2 3 (symFrames 3)
            none).getI 0).idx + 3 / 2) :=
  ⟨⟨rfl, rfl, Or.inl rfl, by decide, by decide⟩,
    C4_sliding_window symPrim (fun _ _ => 0) 64 2 3 [] (symFrames 3)
      (symLabels 3) none none none 0 0 rfl rfl (Or.inl rfl) (by decide)
      (by decide)⟩

/-- C5: for every forward pass of `RlspNet` on a window of `depth` frames of
shape `(N, channel, H, W)`, with the feedback frame of shape
`(N, channel, scale*H, scale*W)` and the hidden state either absent or of
shape `(N, filters, H, W)`, the returned super-resolved frame has `channel`
channels at spatial size `(scale*H) x (scale*W)` and the returned next
hidden state has `filters` channels at spatial size `H x W`.  The
convolution blocks, `SpaceToDepth` and the interpolation are modelled at the
shape level (`shapePrim`). -/
theorem C5_rlspnet_shapes (scale channel depth layers filters N H W : Nat)
    (hidden : Option (Option ShapeT)) (hd : 1 ≤ depth) (hs : 1 ≤ scale)
    (hh : hidden = none ∨ hidden = some (some ⟨N, filters, H, W⟩)) :
    RlspNet.forward (shapePrim scale channel depth layers filters) filters
        depth scale (List.replicate depth (some ⟨N, channel, H, W⟩))
        (some ⟨N, channel, H * scale, W * scale⟩) hidden
      = (some ⟨N, channel, H * scale, W * scale⟩, some ⟨N, filters, H, W⟩) := by
  have hs0 : 0 < scale := hs
  have hlr0 : (List.replicate depth
        (some (⟨N, channel, H, W⟩ : ShapeT))).headI
      = some (⟨N, channel, H, W⟩ : ShapeT) := headI_replicate hd _
  have hcenter : (List.replicate depth
        (some (⟨N, channel, H, W⟩ : ShapeT))).getI (depth / 2)
      = some (⟨N, channel, H, W⟩ : ShapeT) := getI_replicate (by omega) _
  have hzf : (shapePrim scale channel depth layers filters).zerosF filters
        (some ⟨N, channel, H, W⟩) = some ⟨N, filters, H, W⟩ := rfl
  have hinterp : (shapePrim scale channel depth layers filters).interpolate
        (some ⟨N, channel, H, W⟩) scale
      = some ⟨N, channel, H * scale, W * scale⟩ := rfl
  have hdetach : (shapePrim scale channel depth layers filters).detach
      = id := rfl
  have hfb : (shapePrim scale channel depth layers filters).spaceToDepth scale
        (some ⟨N, channel, H * scale, W * scale⟩)
      = some ⟨N, channel * scale ^ 2, H, W⟩ := by
    simp only [shapePrim, Option.some_bind]
    rw [if_pos ⟨hs0, dvd_mul_left scale H, dvd_mul_left scale W⟩,
      Nat.mul_div_cancel _ hs0, Nat.mul_div_cancel _ hs0]
  have hcat1 : (shapePrim scale channel depth layers filters).cat
        (List.replicate depth (some ⟨N, channel, H, W⟩))
      = some ⟨N, depth * channel, H, W⟩ :=
    catShape_replicate N channel H W hd
  have hcat3aux : catShape [some (⟨N, depth * channel, H, W⟩ : ShapeT),
        some ⟨N, filters, H, W⟩, some ⟨N, channel * scale ^ 2, H, W⟩]
      = some ⟨N, depth * channel + filters + channel * scale ^ 2, H, W⟩ := by
    rw [catShape, List.foldl_cons, List.foldl_cons, List.foldl_nil,
      catPair_some, catPair_some]
  have hcat3 : (shapePrim scale channel depth layers filters).cat
        [some ⟨N, depth * channel, H, W⟩, some ⟨N, filters, H, W⟩,
          some ⟨N, channel * scale ^ 2, H, W⟩]
      = some ⟨N, depth * channel + filters + channel * scale ^ 2, H, W⟩ :=
    hcat3aux
  have hcvc : (shapePrim scale channel depth layers filters).convCell
        (some ⟨N, depth * channel + filters + channel * scale ^ 2, H, W⟩)
      = some ⟨N, filters, H, W⟩ := by
    show (convShape filters filters)^[layers - 2] _ = _
    rw [convShape_apply _ _ _ _ (by ring), iterate_convShape]
  have hcvh : (shapePrim scale channel depth layers filters).convHidden
        (some ⟨N, filters, H, W⟩) = some ⟨N, filters, H, W⟩ :=
    convShape_apply _ _ _ _ rfl
  have hcve : (shapePrim scale channel depth layers filters).convExit
        (some ⟨N, filters, H, W⟩) = some ⟨N, channel * scale ^ 2, H, W⟩ :=
    convShape_apply _ _ _ _ rfl
  have hpx : (shapePrim scale channel depth layers filters).pixelShuffle
        (some ⟨N, channel * scale ^ 2, H, W⟩) scale
      = some ⟨N, channel, H * scale, W * scale⟩ := by
    simp only [shapePrim, Option.some_bind]
    rw [if_pos ⟨hs0, dvd_mul_left (scale ^ 2) channel⟩,
      Nat.mul_div_cancel _ (pow_pos hs0 2)]
  have hadd : (shapePrim scale channel depth layers filters).add
        (some ⟨N, channel, H * scale, W * scale⟩)
        (some ⟨N, channel, H * scale, W * scale⟩)
      = some ⟨N, channel, H * scale, W * scale⟩ := by
    simp [shapePrim]
  rcases hh with h | h
  · subst h
    simp only [RlspNet.forward, RLSPCell.forward]
    rw [hlr0, hzf, hcenter, hinterp, hdetach]
    simp only [id_eq]
    rw [hfb, hcat1, hcat3, hcvc, hcvh, hcve, hpx, hadd]
  · subst h
    simp only [RlspNet.forward, RLSPCell.forward]
    rw [hcenter, hinterp, hdetach]
    simp only [id_eq]
    rw [hfb, hcat1, hcat3, hcvc, hcvh, hcve, hpx, hadd]

/-- C5 witness: the shape theorem instantiated at `scale = 2`,
`channel = 3`, `depth = 3`, `layers = 7`, `filters = 64`, batch 1 and
spatial size 8 x 8, with no incoming hidden state. -/
theorem C5_witness :
    (1 ≤ 3 ∧ 1 ≤ 2
      ∧ ((none : Option (Option ShapeT)) = none
          ∨ (none : Option (Option ShapeT)) = some (some ⟨1, 64, 8, 8⟩)))
  ∧ RlspNet.forward (shapePrim 2 3 3 7 64) 64 3 2
        (List.replicate 3 (some ⟨1, 3, 8, 8⟩)) (some ⟨1, 3, 8 * 2, 8 * 2⟩)
        none
      = (some ⟨1, 3, 8 * 2, 8 * 2⟩, some ⟨1, 64, 8, 8⟩) :=
  ⟨⟨by decide, by decide, Or.inl rfl⟩,
    C5_rlspnet_shapes 2 3 3 7 64 1 8 8 none (by decide) (by decide)
      (Or.inl rfl)⟩

/-- C6 counterexample: the claim quantifies over every training call, but a
training call with 2 input frames and `clips = 3` raises (the loop body
never runs, `total_loss` is still the Python int `0`, and
`total_loss.backward()` fails), so no loss dictionary is returned. -/
theorem C6_counterexample :
    RLSP.train symPrim 64 2 3 [] (symFrames 2) (symLabels 2) none
      = Except.error "AttributeError: int object has no attribute backward" :=
  rfl

/-- C6 (amended): every training call with labels covering the input frames
and a non-empty processed index range returns a dictionary of scalar loss
values with keys `total_loss` and `image_loss`, and every evaluation call on
a non-empty frame sequence — with labels of matching length and, when a
summary writer is registered, the `epoch` kwarg supplied, or with labels
omitted and no summary writer registered — returns a pair of a list of
predicted frames and a metrics dictionary with key `psnr`. -/
theorem C6_return_shapes {α : Type} [Inhabited α] (P : ModelPrim α)
    (psnrF : α → α → ℚ) (f s c : Nat) (param_groups : List ℚ)
    (frames labels ls : List α) (lr? : Option ℚ) (w : Bool)
    (epoch? : Option Nat) (hn : 2 * (c / 2) < frames.length)
    (hll : labels.length = frames.length) (hl : ls.length = frames.length)
    (hwe : w = false ∨ ∃ ep, epoch? = some ep) :
    (RLSP.train P f s c param_groups frames labels lr?).map
        (fun o => o.dict.map Prod.fst)
      = Except.ok ["total_loss", "image_loss"]
  ∧ (RLSP.eval P psnrF f s c w epoch? frames (some ls)).map
        (fun o => o.metrics.map Prod.fst) = Except.ok ["psnr"]
  ∧ (RLSP.eval P psnrF f s c false epoch? frames none).map
        (fun o => o.metrics.map Prod.fst) = Except.ok ["psnr"] := by
  have hne : frames ≠ [] := by
    intro h0
    rw [h0] at hn
    simp at hn
  have hC := loopIdx_ne_nil hn
  have hcov : ∀ i ∈ loopIdx c frames.length, i < labels.length :=
    cover_of_le (le_of_eq hll.symm)
  obtain ⟨t, u, hok, -, -⟩ :=
    train_eq_ok P f s c param_groups frames labels lr? hne hC hcov
  have hcovE : (some ls : Option (List α)) = none
      ∨ ∃ l2, (some ls : Option (List α)) = some l2
          ∧ ∀ i ∈ loopIdx c frames.length, i < l2.length :=
    Or.inr ⟨ls, rfl, cover_of_le (le_of_eq hl.symm)⟩
  have hwl : w = false
      ∨ ∃ ep l2, epoch? = some ep ∧ (some ls : Option (List α)) = some l2
          ∧ (loopIdx c frames.length).getLastD 0 < l2.length := by
    rcases hwe with h | ⟨ep, hep⟩
    · exact Or.inl h
    · refine Or.inr ⟨ep, ls, hep, rfl, ?_⟩
      rw [hl]
      exact loopIdx_getLastD_lt (by omega)
  have heok := eval_eq_ok P psnrF f s c w epoch? frames (some ls) hne
    hcovE hwl
  have heok2 := eval_eq_ok P psnrF f s c false epoch? frames none hne
    (Or.inl rfl) (Or.inl rfl)
  refine ⟨by rw [hok]; rfl, by rw [heok]; rfl, by rw [heok2]; rfl⟩

/-- C6 witness: the amended return-shape theorem instantiated at a concrete
3-frame call with `clips = 3`, no summary writer. -/
theorem C6_witness :
    (2 * (3 / 2) < (symFrames 3).length
      ∧ (symLabels 3).length = (symFrames 3).length
      ∧ (symLabels 3).length = (symFrames 3).length
      ∧ (false = false ∨ ∃ ep, (none : Option Nat) = some ep))
  ∧ ((RLSP.train symPrim 64 2 3 [] (symFrames 3) (symLabels 3) none).map
        (fun o => o.dict.map Prod.fst)
      = Except.ok ["total_loss", "image_loss"]
    ∧ (RLSP.eval symPrim (fun _ _ => 0) 64 2 3 false none (symFrames 3)
          (some (symLabels 3))).map (fun o => o.metrics.map Prod.fst)
        = Except.ok ["psnr"]
    ∧ (RLSP.eval symPrim (fun _ _ => 0) 64 2 3 false none (symFrames 3)
          none).map (fun o => o.metrics.map Prod.fst)
        = Except.ok ["psnr"]) :=
  ⟨⟨by decide, rfl, rfl, Or.inl rfl⟩,
    C6_return_shapes symPrim (fun _ _ => 0) 64 2 3 [] (symFrames 3)
      (symLabels 3) (symLabels 3) none false none (by decide) rfl rfl
      (Or.inl rfl)⟩

/-- C7 counterexample: the claim says an evaluation call with labels omitted
completes normally for every number of input frames, but with zero input
frames `frames[0]` (source line 121) raises `IndexError`. -/
theorem C7_counterexample :
    RLSP.eval symPrim (fun _ _ => 0) 64 2 3 false none ([] : List TExpr) none
      = Except.error "IndexError" :=
  rfl

/-- C7 (amended): an evaluation call with labels omitted and no summary
writer registered completes normally on every non-empty frame sequence.
The errors this code itself can raise are exactly: `IndexError` on an empty
frame sequence (`frames[0]`, both entry points) or when the provided labels
do not cover a processed index (`labels[i]`, lines 102/131) or, with a
writer, the final index (line 137); `AttributeError` in training when no
frame index is processed (`backward()` on the int `0`); `KeyError` when a
summary writer is registered and the `epoch` kwarg is absent (line 135);
and `TypeError` when a writer is registered, `epoch` is supplied, and labels
are omitted (line 137).  The last two conjuncts classify every error either
entry point can produce; anything else is left to the external tensor
runtime. -/
theorem C7_error_behaviour {α : Type} [Inhabited α] (P : ModelPrim α)
    (psnrF : α → α → ℚ) (f s c : Nat) (param_groups : List ℚ)
    (labels? labels3? : Option (List α)) (epoch? epoch3? : Option Nat)
    (ep : Nat) (labels frames frames2 frames3 labels3 : List α)
    (lr? lr3? : Option ℚ) (w w3 : Bool) (e1 e2 : String)
    (hne : frames ≠ []) (hC0 : frames.length ≤ 2 * (c / 2))
    (hn2 : 2 * (c / 2) < frames2.length)
    (he1 : RLSP.train P f s c param_groups frames3 labels3 lr3?
      = Except.error e1)
    (he2 : RLSP.eval P psnrF f s c w3 epoch3? frames3 labels3?
      = Except.error e2) :
    (RLSP.eval P psnrF f s c false epoch? frames none).isOk = true
  ∧ RLSP.eval P psnrF f s c w epoch? ([] : List α) labels?
      = Except.error "IndexError"
  ∧ RLSP.train P f s c param_groups frames labels lr?
      = Except.error "AttributeError: int object has no attribute backward"
  ∧ RLSP.eval P psnrF f s c true none frames none
      = Except.error "KeyError: epoch"
  ∧ RLSP.eval P psnrF f s c true (some ep) frames none
      = Except.error "TypeError: NoneType object is not subscriptable"
  ∧ RLSP.train P f s c param_groups frames2 ([] : List α) lr?
      = Except.error "IndexError"
  ∧ RLSP.eval P psnrF f s c w epoch? frames2 (some ([] : List α))
      = Except.error "IndexError"
  ∧ (e1 = "IndexError"
      ∨ e1 = "AttributeError: int object has no attribute backward")
  ∧ (e2 = "IndexError" ∨ e2 = "KeyError: epoch"
      ∨ e2 = "TypeError: NoneType object is not subscriptable") := by
  have hnil : loopIdx c frames.length = [] := by
    rw [loopIdx_eq, List.range'_eq_nil]
    omega
  have hne2 : frames2 ≠ [] := by
    intro h0
    rw [h0] at hn2
    simp at hn2
  obtain ⟨m, hm⟩ : ∃ m, frames2.length - 2 * (c / 2) = m + 1 :=
    ⟨frames2.length - 2 * (c / 2) - 1, by omega⟩
  have hcons : loopIdx c frames2.length
      = c / 2 :: List.range' (c / 2 + 1) m := by
    rw [loopIdx_eq, hm, List.range'_succ]
  refine ⟨?_, ?_, ?_, ?_, ?_, ?_, ?_, ?_, ?_⟩
  · rw [eval_eq_ok P psnrF f s c false epoch? frames none hne (Or.inl rfl)
      (Or.inl rfl)]
    rfl
  · rfl
  · rw [RLSP.train, pyGet_zero hne, hnil]
    rfl
  · obtain ⟨r4, hr4⟩ := evalLoop_ok P psnrF f s c frames none
      (loopIdx c frames.length) (evalAcc0 P s frames) (Or.inl rfl)
    rw [RLSP.eval, pyGet_zero hne]
    simp only [hr4]
    rfl
  · obtain ⟨r5, hr5⟩ := evalLoop_ok P psnrF f s c frames none
      (loopIdx c frames.length) (evalAcc0 P s frames) (Or.inl rfl)
    rw [RLSP.eval, pyGet_zero hne]
    simp only [hr5]
    rfl
  · rw [RLSP.train, pyGet_zero hne2, hcons]
    simp only [trainLoop, pyGet_nil]
  · rw [RLSP.eval, pyGet_zero hne2, hcons]
    simp only [evalLoop, psnrStep, pyGet_nil]
  · exact train_error_cases P f s c param_groups frames3 labels3 lr3? e1 he1
  · exact eval_error_cases P psnrF f s c w3 epoch3? frames3 labels3? e2 he2

/-- C7 witness: the amended error-behaviour theorem instantiated at concrete
inputs with `clips = 3`: a single-frame sequence (empty processed range), a
3-frame sequence (for the short-label errors), and the empty sequence as the
concrete erroring call for the classification conjuncts. -/
theorem C7_witness :
    ([TExpr.frame 0] ≠ ([] : List TExpr)
      ∧ ([TExpr.frame 0] : List TExpr).length ≤ 2 * (3 / 2)
      ∧ 2 * (3 / 2) < (symFrames 3).length
      ∧ RLSP.train symPrim 64 2 3 [] ([] : List TExpr) ([] : List TExpr) none
          = Except.error "IndexError"
      ∧ RLSP.eval symPrim (fun _ _ => 0) 64 2 3 false none ([] : List TExpr)
          none = Except.error "IndexError")
  ∧ ((RLSP.eval symPrim (fun _ _ => 0) 64 2 3 false none [TExpr.frame 0]
        none).isOk = true
    ∧ RLSP.eval symPrim (fun _ _ => 0) 64 2 3 false none ([] : List TExpr)
        none = Except.error "IndexError"
    ∧ RLSP.train symPrim 64 2 3 [] [TExpr.frame 0] [TExpr.lab 0] none
        = Except.error "AttributeError: int object has no attribute backward"
    ∧ RLSP.eval symPrim (fun _ _ => 0) 64 2 3 true none [TExpr.frame 0] none
        = Except.error "KeyError: epoch"
    ∧ RLSP.eval symPrim (fun _ _ => 0) 64 2 3 true (some 0) [TExpr.frame 0]
        none = Except.error "TypeError: NoneType object is not subscriptable"
    ∧ RLSP.train symPrim 64 2 3 [] (symFrames 3) ([] : List TExpr) none
        = Except.error "IndexError"
    ∧ RLSP.eval symPrim (fun _ _ => 0) 64 2 3 false none (symFrames 3)
        (some ([] : List TExpr)) = Except.error "IndexError"
    ∧ ("IndexError" = "IndexError"
        ∨ "IndexError" = "AttributeError: int object has no attribute backward")
    ∧ ("IndexError" = "IndexError" ∨ "IndexError" = "KeyError: epoch"
        ∨ "IndexError" = "TypeError: NoneType object is not subscriptable")) :=
  ⟨⟨List.cons_ne_nil _ _, by decide, by decide, rfl, rfl⟩,
    C7_error_behaviour symPrim (fun _ _ => 0) 64 2 3 [] none none none none
      0 [TExpr.lab 0] [TExpr.frame 0] (symFrames 3) ([] : List TExpr)
      ([] : List TExpr) none none false false "IndexError" "IndexError"
      (List.cons_ne_nil _ _) (by decide) (by decide) rfl rfl⟩

/-- C8: in both `RLSP.train` and `RLSP.eval` (with labels covering the
processed indices, as a completed call requires), the feedback frame fed to
the first processed step is the zero tensor shaped like the first input
frame upsampled by the scale factor (`torch.zeros_like(upsample(frames[0],
scale))`), and the feedback frame fed to each later step is the detached
prediction of the immediately preceding step. -/
theorem C8_feedback_threading {α : Type} [Inhabited α] (P : ModelPrim α)
    (psnrF : α → α → ℚ) (f s c : Nat) (param_groups : List ℚ)
    (frames labels : List α) (lr? : Option ℚ) (labels? : Option (List α))
    (epoch? : Option Nat) (k m : Nat)
    (hl : labels.length = frames.length)
    (hcove : labels? = none
      ∨ ∃ ls, labels? = some ls ∧ ls.length = frames.length)
    (hn : 2 * (c / 2) < frames.length)
    (hk : k + 1 < (trainSteps P f s c frames labels).length)
    (hm : m + 1 < (evalSteps P psnrF f s c frames labels?).length) :
    (RLSP.train P f s c param_groups frames labels lr?).map (fun o => o.steps)
      = Except.ok (trainSteps P f s c frames labels)
  ∧ (RLSP.eval P psnrF f s c false epoch? frames labels?).map
        (fun o => o.steps)
      = Except.ok (evalSteps P psnrF f s c frames labels?)
  ∧ (trainSteps P f s c frames labels).headI.srIn
      = P.zerosLike (P.upsample frames.headI s)
  ∧ ((trainSteps P f s c frames labels).getI (k + 1)).srIn
      = P.detach (((trainSteps P f s c frames labels).getI k).srOut)
  ∧ (evalSteps P psnrF f s c frames labels?).headI.srIn
      = P.zerosLike (P.upsample frames.headI s)
  ∧ ((evalSteps P psnrF f s c frames labels?).getI (m + 1)).srIn
      = P.detach (((evalSteps P psnrF f s c frames labels?).getI m).srOut) := by
  have hcov : ∀ i ∈ loopIdx c frames.length, i < labels.length :=
    cover_of_le (le_of_eq hl.symm)
  have hcove' : labels? = none
      ∨ ∃ ls, labels? = some ls
          ∧ ∀ i ∈ loopIdx c frames.length, i < ls.length := by
    rcases hcove with h | ⟨ls, hls, hlen⟩
    · exact Or.inl h
    · exact Or.inr ⟨ls, hls, cover_of_le (le_of_eq hlen.symm)⟩
  have hne : frames ≠ [] := by
    intro h0
    rw [h0] at hn
    simp at hn
  have hC := loopIdx_ne_nil hn
  obtain ⟨t, u, hok, -, -⟩ :=
    train_eq_ok P f s c param_groups frames labels lr? hne hC hcov
  have heok := eval_eq_ok P psnrF f s c false epoch? frames labels? hne
    hcove' (Or.inl rfl)
  obtain ⟨r, hr⟩ := trainLoop_ok P f s c frames labels
    (loopIdx c frames.length) (trainAcc0 P s frames) hcov
  have hse := trainSteps_eq P f s c frames labels r hr
  have hspecT := trainLoop_spec P f s c frames labels
    (loopIdx c frames.length) (trainAcc0 P s frames) r hr
  obtain ⟨re, hre⟩ := evalLoop_ok P psnrF f s c frames labels?
    (loopIdx c frames.length) (evalAcc0 P s frames) hcove'
  have hsee := evalSteps_eq P psnrF f s c frames labels? re hre
  have hspecE := evalLoop_spec P psnrF f s c frames labels?
    (loopIdx c frames.length) (evalAcc0 P s frames) re hre
  have hkl : k + 1 < r.2.length := by
    rw [hse] at hk
    exact hk
  have hml : m + 1 < re.2.length := by
    rw [hsee] at hm
    exact hm
  have htne : r.2 ≠ [] := by
    intro h0
    rw [h0] at hkl
    simp at hkl
  have hene : re.2 ≠ [] := by
    intro h0
    rw [h0] at hml
    simp at hml
  have hlinkT := List.chain'_iff_get.mp hspecT.2.2.2.1 k (by omega)
  have hlinkE := List.chain'_iff_get.mp hspecE.2.2.2.1 m (by omega)
  refine ⟨by rw [hok]; rfl, by rw [heok]; rfl, ?_, ?_, ?_, ?_⟩
  · rw [hse]
    exact (hspecT.2.2.1 _ (head?_headI htne)).1
  · rw [hse, List.getI_eq_get _ hkl,
      List.getI_eq_get _ (by omega : k < r.2.length)]
    exact hlinkT.1
  · rw [hsee]
    exact hspecE.2.2.1 _ (head?_headI hene)
  · rw [hsee, List.getI_eq_get _ hml,
      List.getI_eq_get _ (by omega : m < re.2.length)]
    exact hlinkE

/-- C8 witness: the feedback-threading theorem instantiated at the first two
processed steps of a concrete 4-frame call with `clips = 3`. -/
theorem C8_witness :
    ((symLabels 4).length = (symFrames 4).length
      ∧ ((none : Option (List TExpr)) = none
          ∨ ∃ ls, (none : Option (List TExpr)) = some ls
              ∧ ls.length = (symFrames 4).length)
      ∧ 2 * (3 / 2) < (symFrames 4).length
      ∧ 0 + 1 < (trainSteps symPrim 64 2 3 (symFrames 4) (symLabels 4)).length
      ∧ 0 + 1 < (evalSteps symPrim (fun _ _ => 0) 64 2 3 (symFrames 4)
          none).length)
  ∧ ((RLSP.train symPrim 64 2 3 [] (symFrames 4) (symLabels 4) none).map
        (fun o => o.steps)
      = Except.ok (trainSteps symPrim 64 2 3 (symFrames 4) (symLabels 4))
    ∧ (RLSP.eval symPrim (fun _ _ => 0) 64 2 3 false none (symFrames 4)
          none).map (fun o => o.steps)
        = Except.ok (evalSteps symPrim (fun _ _ => 0) 64 2 3 (symFrames 4)
            none)
    ∧ (trainSteps symPrim 64 2 3 (symFrames 4) (symLabels 4)).headI.srIn
        = symPrim.zerosLike (symPrim.upsample (symFrames 4).headI 2)
    ∧ ((trainSteps symPrim 64 2 3 (symFrames 4) (symLabels 4)).getI
          (0 + 1)).srIn
        = symPrim.detach (((trainSteps symPrim 64 2 3 (symFrames 4)
            (symLabels 4)).getI 0).srOut)
    ∧ (evalSteps symPrim (fun _ _ => 0) 64 2 3 (symFrames 4)
          none).headI.srIn
        = symPrim.zerosLike (symPrim.upsample (symFrames 4).headI 2)
    ∧ ((evalSteps symPrim (fun _ _ => 0) 64 2 3 (symFrames 4) none).getI
          (0 + 1)).srIn
        = symPrim.detach (((evalSteps symPrim (fun _ _ => 0) 64 2 3
            (symFrames 4) none).getI 0).srOut)) :=
  ⟨⟨rfl, Or.inl rfl, by decide, by decide, by decide⟩,
    C8_feedback_threading symPrim (fun _ _ => 0) 64 2 3 [] (symFrames 4)
      (symLabels 4) none none none 0 0 rfl (Or.inl rfl) (by decide)
      (by decide) (by decide)⟩

/-- C9: a training call (with labels covering the input frames, as a
completed call requires) with `learning_rate = None` leaves the learning
rate of every Adam parameter group unchanged, and a training call with a
truthy (non-zero) `learning_rate` sets the learning rate of every parameter
group to exactly that value. -/
theorem C9_learning_rate {α : Type} [Inhabited α] (P : ModelPrim α)
    (f s c : Nat) (param_groups : List ℚ) (frames labels : List α) (v : ℚ)
    (hv : v ≠ 0) (hn : 2 * (c / 2) < frames.length)
    (hl : labels.length = frames.length) :
    (RLSP.train P f s c param_groups frames labels none).map (fun o => o.lrs)
      = Except.ok param_groups
  ∧ (RLSP.train P f s c param_groups frames labels (some v)).map
        (fun o => o.lrs)
      = Except.ok (param_groups.map fun _ => v) := by
  have hcov : ∀ i ∈ loopIdx c frames.length, i < labels.length :=
    cover_of_le (le_of_eq hl.symm)
  have hne : frames ≠ [] := by
    intro h0
    rw [h0] at hn
    simp at hn
  have hC := loopIdx_ne_nil hn
  obtain ⟨t1, u1, hok1, -, -⟩ :=
    train_eq_ok P f s c param_groups frames labels none hne hC hcov
  obtain ⟨t2, u2, hok2, -, -⟩ :=
    train_eq_ok P f s c param_groups frames labels (some v) hne hC hcov
  constructor
  · rw [hok1]
    rfl
  · rw [hok2]
    simp only [Except.map, setLearningRate, if_pos hv]

/-- C9 witness: the learning-rate theorem instantiated at a concrete 3-frame
call with one parameter group at rate 1 and new rate 2. -/
theorem C9_witness :
    ((2 : ℚ) ≠ 0 ∧ 2 * (3 / 2) < (symFrames 3).length
      ∧ (symLabels 3).length = (symFrames 3).length)
  ∧ ((RLSP.train symPrim 64 2 3 [(1 : ℚ)] (symFrames 3) (symLabels 3)
        none).map (fun o => o.lrs)
      = Except.ok [(1 : ℚ)]
    ∧ (RLSP.train symPrim 64 2 3 [(1 : ℚ)] (symFrames 3) (symLabels 3)
          (some 2)).map (fun o => o.lrs)
        = Except.ok ([(1 : ℚ)].map fun _ => (2 : ℚ))) :=
  ⟨⟨by norm_num, by decide, rfl⟩,
    C9_learning_rate symPrim 64 2 3 [(1 : ℚ)] (symFrames 3) (symLabels 3) 2
      (by norm_num) (by decide) rfl⟩

/-- C10 counterexample: the claim quantifies over every evaluation call, but
an evaluation call on an empty frame sequence raises `IndexError` at
`frames[0]` (source line 121) and returns no list at all. -/
theorem C10_counterexample :
    RLSP.eval symPrim (fun _ _ => 0) 64 2 3 false none ([] : List TExpr)
        (some ([] : List TExpr))
      = Except.error "IndexError" :=
  rfl

/-- C10 (amended): for every evaluation call on a non-empty frame sequence
with labels of matching length (and, when a summary writer is registered,
the `epoch` kwarg supplied), the returned list of predicted frames has
exactly `max(0, n - 2 * (clips // 2))` entries; when `n < clips` no frame is
processed, the list is empty, and the `psnr` metric is numpy's mean of an
empty collection, `NaN`. -/
theorem C10_predict_count {α : Type} [Inhabited α] (P : ModelPrim α)
    (psnrF : α → α → ℚ) (f s c : Nat) (w : Bool) (epoch? : Option Nat)
    (frames ls : List α) (hne : frames ≠ [])
    (hl : ls.length = frames.length)
    (hwe : w = false ∨ ∃ ep, epoch? = some ep) :
    (RLSP.eval P psnrF f s c w epoch? frames (some ls)).map
        (fun o => (o.predicts.length : ℤ))
      = Except.ok (max 0 ((frames.length : ℤ) - 2 * ((c : ℤ) / 2)))
  ∧ (frames.length < c →
      (RLSP.eval P psnrF f s c w epoch? frames (some ls)).map
          (fun o => (o.predicts, o.metrics, o.steps))
        = Except.ok ([], [("psnr", NpMean.nan)], [])) := by
  have hn1 : 1 ≤ frames.length := List.length_pos.mpr hne
  have hcov : (some ls : Option (List α)) = none
      ∨ ∃ l2, (some ls : Option (List α)) = some l2
          ∧ ∀ i ∈ loopIdx c frames.length, i < l2.length :=
    Or.inr ⟨ls, rfl, cover_of_le (le_of_eq hl.symm)⟩
  have hwl : w = false
      ∨ ∃ ep l2, epoch? = some ep ∧ (some ls : Option (List α)) = some l2
          ∧ (loopIdx c frames.length).getLastD 0 < l2.length := by
    rcases hwe with h | ⟨ep, hep⟩
    · exact Or.inl h
    · refine Or.inr ⟨ep, ls, hep, rfl, ?_⟩
      rw [hl]
      exact loopIdx_getLastD_lt hn1
  have heok := eval_eq_ok P psnrF f s c w epoch? frames (some ls) hne
    hcov hwl
  have hlen := evalSteps_length P psnrF f s c frames (some ls) hcov
  constructor
  · rw [heok]
    simp only [Except.map, Except.ok.injEq, List.length_map]
    rw [hlen]
    omega
  · intro hlt
    have hnil : evalSteps P psnrF f s c frames (some ls) = [] := by
      rw [← List.length_eq_zero, hlen]
      omega
    obtain ⟨r, hr⟩ := evalLoop_ok P psnrF f s c frames (some ls) _ _ hcov
    have hpev := evalPsnrs_eq P psnrF f s c frames (some ls) r hr
    have hse := evalSteps_eq P psnrF f s c frames (some ls) r hr
    have hspec := evalLoop_spec P psnrF f s c frames (some ls) _ _ r hr
    have hpsnr : evalPsnrs P psnrF f s c frames (some ls)
        = (evalSteps P psnrF f s c frames (some ls)).map
            (fun st => psnrF st.srOut (ls.getI st.idx)) := by
      rw [hpev, hse]
      have h2 := hspec.2.2.2.2.2.2.2 ls rfl
      simpa [evalAcc0] using h2
    rw [heok]
    simp only [Except.map, Except.ok.injEq]
    rw [hpsnr, hnil]
    simp [npMean]

/-- C10 witness: the amended predict-count theorem instantiated at a
single-frame evaluation call with `clips = 3`, no summary writer: nothing is
processed, the prediction list is empty and the metric is `NaN`. -/
theorem C10_witness :
    ([TExpr.frame 0] ≠ ([] : List TExpr)
      ∧ ([TExpr.lab 0] : List TExpr).length
          = ([TExpr.frame 0] : List TExpr).length
      ∧ (false = false ∨ ∃ ep, (none : Option Nat) = some ep))
  ∧ ((RLSP.eval symPrim (fun _ _ => 0) 64 2 3 false none [TExpr.frame 0]
        (some [TExpr.lab 0])).map (fun o => (o.predicts.length : ℤ))
      = Except.ok (max 0 ((([TExpr.frame 0] : List TExpr).length : ℤ)
          - 2 * ((3 : ℤ) / 2)))
    ∧ (([TExpr.frame 0] : List TExpr).length < 3 →
        (RLSP.eval symPrim (fun _ _ => 0) 64 2 3 false none [TExpr.frame 0]
            (some [TExpr.lab 0])).map
            (fun o => (o.predicts, o.metrics, o.steps))
          = Except.ok ([], [("psnr", NpMean.nan)], []))) :=
  ⟨⟨List.cons_ne_nil _ _, rfl, Or.inl rfl⟩,
    C10_predict_count symPrim (fun _ _ => 0) 64 2 3 false none
      [TExpr.frame 0] [TExpr.lab 0] (List.cons_ne_nil _ _) rfl
      (Or.inl rfl)⟩

end VSR
